import Mathlib

set_option maxHeartbeats 1000000

namespace Atrope

/-!
Shallow embedding of the atrope repository (Lukkyy/atrope).

Embedded components, translated from the source:
* the Glance dispatcher (`src/atrope/dispatcher/glance.py`): a catalog of
  entries is explicit state, every remote call is recorded in a trace;
* the Hepix feed image (`src/atrope/image.py`, class `HepixImage`): network
  and checksum outcomes are supplied by an explicit oracle environment;
* the Harbor registry image (`src/atrope/image.py`, class `HarborImage`)
  and the Harbor image-list source (`src/atrope/image_list/harbor.py`).
-/

/-- Model of `dict.get(k, "")` over an association list (first binding wins,
as in a Python dict built in insertion order). -/
def lookupStr (k : String) : List (String × String) → Option String
  | [] => none
  | (k2, v) :: rest => if k2 = k then some v else lookupStr k rest

/-- One Glance image record, as seen and mutated by the dispatcher:
identity, name, tags, free-form properties, status, visibility, owner
project and the membership list (member project id, member status). -/
structure GlanceEntry where
  id : Nat
  name : String
  tags : List String
  props : List (String × String)
  status : String
  visibility : String
  owner : String
  members : List (String × String)
  deriving DecidableEq

/-- The Glance catalog: its entries plus a counter supplying fresh ids. -/
structure Catalog where
  entries : List GlanceEntry
  nextId : Nat
  deriving DecidableEq

/-- Remote Glance API calls issued by the dispatcher, recorded as a trace. -/
inductive GlanceOp where
  | listImages (tag : String)
  | createImage (appdbId : String)
  | deleteImage (id : Nat)
  | uploadImage (id : Nat)
  | updateVisibility (id : Nat) (v : String)
  | deactivateImage (id : Nat)
  | addMember (id : Nat) (project : String)
  | removeMember (id : Nat) (project : String)
  | updateMember (id : Nat) (project : String) (st : String)
  | listMembers (id : Nat)
  deriving DecidableEq

/-- Configuration of the Glance dispatcher (`CONF.glance` plus the vo map
read in `Dispatcher.__init__` and the project the dispatcher runs as).
`voMap` maps a VO name to `vo_map.get(vo, {}).get("project_id", "")`. -/
structure GlanceConfig where
  tag : String
  formats : List String
  sharingModel : String
  voMap : List (String × String)
  ownProject : String
  deriving DecidableEq

/-- The descriptor fields `Dispatcher.dispatch` reads from its `image`
argument.  `format` is the native format (`BaseImage.format`); `ovfFormat`
is the disk format `ovf.get_disk_name` would report when the native
artifact is an OVA container (`BaseImage.get_disk`). -/
structure DispatchImage where
  identifier : String
  hash : String
  arch : String
  osname : String
  osversion : String
  description : String
  mpuri : String
  applianceAttributes : List (String × String)
  format : String
  ovfFormat : String
  deriving DecidableEq

/-- Typed errors raised by `Dispatcher.dispatch`
(`exception.MetadataOverwriteNotSupported`, `exception.DuplicatedImage`). -/
inductive DispatchError where
  | metadataOverwrite (key : String)
  | duplicatedImage
  deriving DecidableEq

/-- Property read `img.properties.get(k, "")`. -/
def getProp (e : GlanceEntry) (k : String) : String :=
  (lookupStr k e.props).getD ""

/-- `self.client.image.update_image(id, visibility=v)`. -/
def Catalog.updateVis (s : Catalog) (i : Nat) (v : String) : Catalog :=
  { s with entries := s.entries.map fun e =>
      if e.id = i then { e with visibility := v } else e }

/-- `glance_image.upload(...)`: the server accepts the bytes and the entry
becomes active. -/
def Catalog.upload (s : Catalog) (i : Nat) : Catalog :=
  { s with entries := s.entries.map fun e =>
      if e.id = i then { e with status := "active" } else e }

/-- `self.client.image.delete_image(id)`. -/
def Catalog.deleteImage (s : Catalog) (i : Nat) : Catalog :=
  { s with entries := s.entries.filter fun e => e.id ≠ i }

/-- `self.client.image.deactivate_image(id)`. -/
def Catalog.deactivate (s : Catalog) (i : Nat) : Catalog :=
  { s with entries := s.entries.map fun e =>
      if e.id = i then { e with status := "deactivated" } else e }

/-- `self.client.image.add_member(id, member_id=p)`: a new member starts
pending; adding an existing member raises `ConflictException`, which the
dispatcher swallows, so an existing member is left untouched. -/
def Catalog.addMember (s : Catalog) (i : Nat) (p : String) : Catalog :=
  { s with entries := s.entries.map fun e =>
      if e.id = i ∧ e.members.all (fun m => m.1 ≠ p) then
        { e with members := e.members ++ [(p, "pending")] }
      else e }

/-- `client.image.update_member(member=p, image=id, status=st)`. -/
def Catalog.updateMemberSt (s : Catalog) (i : Nat) (p st : String) : Catalog :=
  { s with entries := s.entries.map fun e =>
      if e.id = i then
        { e with members := e.members.map fun m => if m.1 = p then (m.1, st) else m }
      else e }

/-- `self.client.image.remove_member(id, p)`. -/
def Catalog.removeMember (s : Catalog) (i : Nat) (p : String) : Catalog :=
  { s with entries := s.entries.map fun e =>
      if e.id = i then { e with members := e.members.filter fun m => m.1 ≠ p }
      else e }

/-- Entry lookup by catalog id, used by the membership listing. -/
def Catalog.findEntry (s : Catalog) (i : Nat) : Option GlanceEntry :=
  s.entries.find? fun e => e.id = i

/-- `vo_map.get(vo, {}).get("project_id", "")`. -/
def voProject (cfg : GlanceConfig) (vo : String) : String :=
  (lookupStr vo cfg.voMap).getD ""

/-- The visibility computed at the top of `Dispatcher.dispatch`. -/
def desiredVisibility (cfg : GlanceConfig) (isPublic : Bool) (vos : List String) : String :=
  if cfg.sharingModel = "community" then "community"
  else if cfg.sharingModel = "shared" ∧ vos ≠ [] then "shared"
  else if isPublic then "public" else "private"

/-- Model of Python `str.lower()` (character-wise ASCII lowering, written
so that it reduces definitionally). -/
def strToLower (s : String) : String := String.mk (s.data.map Char.toLower)

/-- The allow-list of disk formats in `Dispatcher.dispatch`. -/
def allowedDiskFormats : List String :=
  ["ami", "ari", "aki", "vhd", "vhdx", "vmdk", "raw", "qcow2", "vdi", "iso",
   "ploop", "root-tar"]

/-- `BaseImage.get_disk`: an OVA container hands back the disk format found
in the embedded OVF descriptor, anything else is returned as is. -/
def getDiskFmt (img : DispatchImage) : String :=
  if strToLower img.format = "ova" then img.ovfFormat else img.format

/-- Format part of `BaseImage.convert(dest_formats)`: no conversion when no
destination formats are configured or the native format is already among
them, otherwise the first destination format is produced. -/
def convertFmt (img : DispatchImage) (formats : List String) : String :=
  let fmt := getDiskFmt img
  match formats with
  | [] => fmt
  | d :: _ => if formats.contains (strToLower fmt) then fmt else d

/-- The final `metadata["disk_format"]` in `Dispatcher.dispatch`: the
converted format, lowercased, coerced to `"raw"` when outside the allow-list. -/
def resolvedDiskFormat (img : DispatchImage) (formats : List String) : String :=
  let f := strToLower (convertFmt img formats)
  if allowedDiskFormats.contains f then f else "raw"

/-- Stand-in for `json.dumps(appliance_attributes)`. -/
def encodeAttrs (attrs : List (String × String)) : String :=
  String.intercalate "," (attrs.map fun kv => kv.1 ++ ":" ++ kv.2)

/-- Keys of the computed `metadata` dict in `Dispatcher.dispatch`, in
insertion order (`APPLIANCE_ATTRIBUTES` is appended only when the image
carries appliance attributes). -/
def baseMetadataKeys : List String :=
  ["name", "tags", "container_format", "architecture", "disk_format",
   "os_distro", "os_version", "visibility",
   "vmcatcher_event_dc_description", "vmcatcher_event_ad_mpuri",
   "appdb_id", "image_hash"]

/-- The kwargs loop of `Dispatcher.dispatch`: each caller-supplied key is
rejected when it is already a metadata key, otherwise it is added to the
metadata before the next key is examined.  Returns the first offending key. -/
def checkKwargs : List String → List (String × String) → Option String
  | _, [] => none
  | keys, (k, _) :: rest =>
    if keys.contains k then some k else checkKwargs (keys ++ [k]) rest

/-- The properties carried by a created Glance entry (the metadata dict
minus the entry-level attributes `name`, `tags` and `visibility`). -/
def dispatchProps (img : DispatchImage) (diskFormat : String)
    (kwargs : List (String × String)) : List (String × String) :=
  [("container_format", "bare"),
   ("architecture", img.arch),
   ("disk_format", diskFormat),
   ("os_distro", strToLower img.osname),
   ("os_version", img.osversion),
   ("vmcatcher_event_dc_description", img.description),
   ("vmcatcher_event_ad_mpuri", img.mpuri),
   ("appdb_id", img.identifier),
   ("image_hash", img.hash)]
  ++ (if img.applianceAttributes ≠ [] then
        [("APPLIANCE_ATTRIBUTES", encodeAttrs img.applianceAttributes)]
      else [])
  ++ kwargs

/-- The filter applied to the tag-scoped listing in `Dispatcher.dispatch`:
managed marker tag present and `appdb_id` property equal to the
descriptor's identifier. -/
def matchesImg (cfg : GlanceConfig) (ident : String) (e : GlanceEntry) : Bool :=
  e.tags.contains cfg.tag && (getProp e "appdb_id" == ident)

/-- The per-VO sharing loop of `Dispatcher.dispatch` (lines 274-290).
`snap` is the local `glance_image` snapshot, which the loop never
refreshes; `visVar` is the local `visibility` variable the loop mutates. -/
def shareLoop (cfg : GlanceConfig) (snap : GlanceEntry) :
    List String → String → Catalog → Catalog × List GlanceOp × String
  | [], visVar, s => (s, [], visVar)
  | vo :: rest, visVar, s =>
    let project := voProject cfg vo
    if project = "" then shareLoop cfg snap rest visVar s
    else if snap.owner = project then shareLoop cfg snap rest visVar s
    else
      let step : Catalog × List GlanceOp × String :=
        if snap.visibility ≠ "shared" then
          (s.updateVis snap.id "shared", [GlanceOp.updateVisibility snap.id "shared"], "shared")
        else (s, [], visVar)
      let s2 := (step.1.addMember snap.id project).updateMemberSt snap.id project "accepted"
      let ops2 := step.2.1 ++
        [GlanceOp.addMember snap.id project,
         GlanceOp.updateMember snap.id project "accepted"]
      let r := shareLoop cfg snap rest step.2.2 s2
      (r.1, ops2 ++ r.2.1, r.2.2)

/-- `Dispatcher._clean_stale_memberships(image_id, vos, visibility)`. -/
def cleanStale (cfg : GlanceConfig) (imgId : Nat) (vos : List String)
    (visFinal : String) (s : Catalog) : Catalog × List GlanceOp :=
  let s1 := s.updateVis imgId "shared"
  let currentProjects := vos.map (voProject cfg)
  let mems := ((s1.findEntry imgId).map GlanceEntry.members).getD []
  let stale := mems.filter fun m => ¬ currentProjects.contains m.1
  let s2 := stale.foldl (fun acc m => acc.removeMember imgId m.1) s1
  (s2.updateVis imgId visFinal,
   [GlanceOp.updateVisibility imgId "shared", GlanceOp.listMembers imgId]
   ++ stale.map (fun m => GlanceOp.removeMember imgId m.1)
   ++ [GlanceOp.updateVisibility imgId visFinal])

/-- The Glance entry produced by `create_image(**metadata,
allow_duplicates=True)`: fresh id, managed marker tag, the computed
properties, queued status and the desired visibility, owned by the
dispatcher's project. -/
def newEntry (cfg : GlanceConfig) (imageName : String) (img : DispatchImage)
    (visibility : String) (kwargs : List (String × String)) (s : Catalog) :
    GlanceEntry :=
  { id := s.nextId, name := imageName, tags := [cfg.tag],
    props := dispatchProps img (resolvedDiskFormat img cfg.formats) kwargs,
    status := "queued", visibility := visibility,
    owner := cfg.ownProject, members := [] }

/-- Tail of `Dispatcher.dispatch` after the duplicate/stale handling:
convert, create when absent, upload when queued, adjust visibility when
active, then share and reap stale memberships under the `shared` model.
`found` is the surviving `glance_image` (`none` after a delete or when no
entry matched). -/
def dispatchCont (cfg : GlanceConfig) (imageName : String) (img : DispatchImage)
    (visibility : String) (vos : List String) (kwargs : List (String × String))
    (found : Option GlanceEntry) (s : Catalog) :
    Except DispatchError Catalog × List GlanceOp :=
  let created : GlanceEntry × Catalog × List GlanceOp :=
    match found with
    | some e => (e, s, [])
    | none =>
      let newE := newEntry cfg imageName img visibility kwargs s
      (newE, { entries := s.entries ++ [newE], nextId := s.nextId + 1 },
       [GlanceOp.createImage img.identifier])
  let snap := created.1
  let afterUp : Catalog × List GlanceOp :=
    if snap.status = "queued" then
      (created.2.1.upload snap.id, [GlanceOp.uploadImage snap.id])
    else (created.2.1, [])
  let afterVis : Catalog × List GlanceOp :=
    if snap.status = "active" ∧ snap.visibility ≠ visibility then
      (afterUp.1.updateVis snap.id visibility,
       [GlanceOp.updateVisibility snap.id visibility])
    else (afterUp.1, [])
  if cfg.sharingModel = "shared" then
    let r := shareLoop cfg snap vos visibility afterVis.1
    let rc := cleanStale cfg snap.id vos r.2.2 r.1
    (Except.ok rc.1,
     created.2.2 ++ afterUp.2 ++ afterVis.2 ++ r.2.1 ++ rc.2)
  else
    (Except.ok afterVis.1, created.2.2 ++ afterUp.2 ++ afterVis.2)

/-- `Dispatcher.dispatch(image_name, image, is_public, **kwargs)`.  `vos`
models the popped `kwargs["vos"]`; `kwargs` the remaining keyword
arguments.  Returns the outcome together with the trace of remote calls. -/
def dispatch (cfg : GlanceConfig) (imageName : String) (img : DispatchImage)
    (isPublic : Bool) (vos : List String) (kwargs : List (String × String))
    (s : Catalog) : Except DispatchError Catalog × List GlanceOp :=
  let visibility := desiredVisibility cfg isPublic vos
  let mdKeys := baseMetadataKeys ++
    (if img.applianceAttributes ≠ [] then ["APPLIANCE_ATTRIBUTES"] else [])
  match checkKwargs mdKeys kwargs with
  | some k => (Except.error (DispatchError.metadataOverwrite k), [])
  | none =>
    match s.entries.filter (matchesImg cfg img.identifier) with
    | [] =>
      let r := dispatchCont cfg imageName img visibility vos kwargs none s
      (r.1, GlanceOp.listImages cfg.tag :: r.2)
    | [e] =>
      if getProp e "image_hash" ≠ img.hash then
        let r := dispatchCont cfg imageName img visibility vos kwargs none
          (s.deleteImage e.id)
        (r.1, GlanceOp.listImages cfg.tag :: GlanceOp.deleteImage e.id :: r.2)
      else
        let r := dispatchCont cfg imageName img visibility vos kwargs (some e) s
        (r.1, GlanceOp.listImages cfg.tag :: r.2)
    | _ :: _ :: _ =>
      (Except.error DispatchError.duplicatedImage, [GlanceOp.listImages cfg.tag])

/-- One iteration of the `Dispatcher.sync` loop for a managed entry:
entries of another image list are skipped, valid identifiers are kept,
otherwise deletion is attempted; when the delete raises an
`HttpException` (modelled by the `delFails` oracle) the entry is made
private and deactivated instead. -/
def syncStep (cfg : GlanceConfig) (listName : String) (validIds : List String)
    (delFails : Nat → Bool) (s : Catalog) (e : GlanceEntry) :
    Catalog × List GlanceOp :=
  if getProp e "image_list" ≠ listName then (s, [])
  else if validIds.contains (getProp e "appdb_id") then (s, [])
  else if delFails e.id then
    ((s.updateVis e.id "private").deactivate e.id,
     [GlanceOp.deleteImage e.id, GlanceOp.updateVisibility e.id "private",
      GlanceOp.deactivateImage e.id])
  else (s.deleteImage e.id, [GlanceOp.deleteImage e.id])

/-- `Dispatcher.sync(image_list)`: iterate over the managed-tagged entries
of the catalog and reap those whose identifier is no longer valid. -/
def sync (cfg : GlanceConfig) (listName : String) (validIds : List String)
    (delFails : Nat → Bool) (s : Catalog) : Catalog × List GlanceOp :=
  let managed := s.entries.filter fun e => e.tags.contains cfg.tag
  managed.foldl
    (fun acc e =>
      let st := syncStep cfg listName validIds delFails acc.1 e
      (st.1, acc.2 ++ st.2))
    (s, [GlanceOp.listImages cfg.tag])

/-! ## Hepix feed image (`src/atrope/image.py`, class `HepixImage`) -/

/-- `HepixImage.field_map`: feed field to attribute name. -/
def hepixFieldMap : List (String × String) :=
  [("ad:group", "group"), ("ad:mpuri", "mpuri"),
   ("ad:user:fullname", "user_fullname"), ("ad:user:guid", "user_guid"),
   ("ad:user:uri", "user_uri"), ("dc:description", "description"),
   ("dc:identifier", "identifier"), ("dc:title", "title"),
   ("hv:hypervisor", "hypervisor"), ("hv:format", "format"),
   ("hv:size", "size"), ("hv:uri", "uri"), ("hv:version", "version"),
   ("sl:arch", "arch"), ("sl:checksum:sha512", "sha512"),
   ("sl:comments", "comments"), ("sl:os", "os"), ("sl:osname", "osname"),
   ("sl:osversion", "osversion")]

/-- `HepixImage.required_fields = field_map.keys()`. -/
def hepixRequiredFields : List String := hepixFieldMap.map Prod.fst

/-- Errors raised by `HepixImage` construction and download
(`atrope/exception.py`). -/
inductive HepixError where
  | invalidImageList
  | expired
  | alreadyDownloaded
  | downloadFailed
  | verificationFailed
  deriving DecidableEq

/-- State of one Hepix feed image descriptor (only the attributes the
embedded code paths read; `expires` is the parsed expiry timestamp). -/
structure HepixImage where
  identifier : String
  uri : String
  sha512 : String
  mpuri : String
  description : String
  arch : String
  osname : String
  osversion : String
  format : String
  applianceAttributes : List (String × String)
  expires : Int
  expired : Bool
  verified : Bool
  location : Option String
  locations : List String
  deriving DecidableEq

/-- Pick a feed field: `image_dict.get(f)` with `""` default for the
attribute assignment (the required-field check is separate). -/
def hepixField (imageDict : List (String × String)) (f : String) : String :=
  (lookupStr f imageDict).getD ""

/-- `HepixImage.__init__` over the `hv:image` sub-dictionary: every required
field must be present or `InvalidImageList` is raised; the expiry field
defaults to `"2000-01-01 00:00"` and the image is `expired` when the parsed
expiry lies before `now` (`_check_expiry`).  Date parsing
(`dateutil.parser.parse`) is supplied as the `parseDate` collaborator and
timestamps are modelled as integers. -/
def mkHepixImage (imageDict : List (String × String)) (parseDate : String → Int)
    (now : Int) : Except HepixError HepixImage :=
  if hepixRequiredFields.all (fun f => (lookupStr f imageDict).isSome) then
    let expires := parseDate ((lookupStr "dc:date:expires" imageDict).getD "2000-01-01 00:00")
    Except.ok
      { identifier := hepixField imageDict "dc:identifier",
        uri := hepixField imageDict "hv:uri",
        sha512 := hepixField imageDict "sl:checksum:sha512",
        mpuri := hepixField imageDict "ad:mpuri",
        description := hepixField imageDict "dc:description",
        arch := hepixField imageDict "sl:arch",
        osname := hepixField imageDict "sl:osname",
        osversion := hepixField imageDict "sl:osversion",
        format := hepixField imageDict "hv:format",
        applianceAttributes := imageDict,
        expires := expires,
        expired := decide (expires < now),
        verified := false,
        location := none,
        locations := [] }
  else Except.error HepixError.invalidImageList

/-- Oracle for the effectful parts of `HepixImage.download`: whether the
cached file already exists at the computed location, whether the n-th HTTP
fetch succeeds, whether the checksum of the cached copy matches, and
whether the checksum of the n-th downloaded copy matches. -/
structure HepixEnv where
  fileExists : Bool
  fetchOk : Nat → Bool
  cachedChecksumOk : Bool
  fetchedChecksumOk : Nat → Bool

/-- `HepixImage._download(location)` for the n-th network fetch: download
the bytes (`ImageDownloadFailed` on failure), then verify the checksum
(`ImageVerificationFailed` propagates). -/
def hepixFetch (env : HepixEnv) (n : Nat) : Except HepixError Unit :=
  if env.fetchOk n then
    if env.fetchedChecksumOk n then Except.ok () else Except.error HepixError.verificationFailed
  else Except.error HepixError.downloadFailed

/-- `HepixImage.download(basedir)`: refuse expired images, refuse an image
already downloaded in this run, verify a cached copy and re-download it
once when its checksum is wrong.  The second component counts the calls to
`_download` (network fetch attempts). -/
def hepixDownload (img : HepixImage) (env : HepixEnv) (basedir : String) :
    Except HepixError HepixImage × Nat :=
  if img.expired then (Except.error HepixError.expired, 0)
  else if img.location.isSome then (Except.error HepixError.alreadyDownloaded, 0)
  else
    let loc := basedir ++ "/" ++ img.identifier
    let finish : HepixImage :=
      { img with verified := true, location := some loc, locations := [loc] }
    if ¬ env.fileExists then
      match hepixFetch env 0 with
      | Except.error e => (Except.error e, 1)
      | Except.ok _ => (Except.ok finish, 1)
    else if env.cachedChecksumOk then (Except.ok finish, 0)
    else
      match hepixFetch env 0 with
      | Except.error e => (Except.error e, 1)
      | Except.ok _ => (Except.ok finish, 1)

/-! ## Harbor registry image (`src/atrope/image.py`, class `HarborImage`) -/

/-- Errors raised by `HarborImage.download`. -/
inductive HarborError where
  | expired
  | alreadyDownloaded
  | downloadFailed
  | notFoundOnDisk
  | verificationFailed
  | atropeError
  deriving DecidableEq

/-- State of one Harbor registry image descriptor. -/
structure HarborImage where
  imageRef : String
  listName : String
  annotations : List (String × String)
  digest : String
  identifier : String
  format : String
  containerFormat : String
  sha512 : Option String
  uri : String
  location : Option String
  locations : List String
  verified : Bool
  expired : Bool
  deriving DecidableEq

/-- `HarborImage.__init__(image_ref, annotations, list_name, digest)`:
note the identifier is `f"{image_ref}-{digest}"`. -/
def mkHarborImage (imageRef : String) (annotations : List (String × String))
    (listName : String) (digest : String) : HarborImage :=
  { imageRef := imageRef,
    listName := listName,
    annotations := annotations,
    digest := digest,
    identifier := imageRef ++ "-" ++ digest,
    format := (lookupStr "org.openstack.glance.disk_format" annotations).getD "raw",
    containerFormat :=
      (lookupStr "org.openstack.glance.container_format" annotations).getD "bare",
    sha512 := none,
    uri := imageRef,
    location := none,
    locations := [],
    verified := false,
    expired := false }

/-- `HarborImage.verify_checksum`: the body is `pass` - it never raises and
never assigns `verified`. -/
def harborVerifyChecksum (img : HarborImage) : Except HarborError HarborImage :=
  Except.ok img

/-- Oracle for the effectful parts of `HarborImage.download`: whether the
recorded location still exists on disk, whether `oras pull` succeeds, the
files it produced, whether the rename into the cache succeeds, whether
hashing the stored file succeeds, and the hex digest it computes. -/
structure HarborEnv where
  locationExists : Bool
  pullOk : Bool
  pulledFiles : List String
  renameOk : Bool
  checksumComputeOk : Bool
  checksumHex : String

/-- The filename sanitisation in `HarborImage.download`. -/
def safeFilename (s : String) : String :=
  String.mk ((s.data.map fun c => if c = '/' ∨ c = ':' then '_' else c).map
    fun c => if c.isAlphanum ∨ c = '-' ∨ c = '_' ∨ c = '.' then c else '_')

/-- `HarborImage.download(basedir)`: a cached copy is "verified" by the
no-op `verify_checksum` (which cannot fail) and therefore always reported
as `ImageAlreadyDownloaded`; otherwise the image is pulled with oras, the
largest file is moved into the cache, its sha512 is computed and stored,
and the no-op `verify_checksum` is called again.  No path assigns
`verified = True`. -/
def harborDownload (img : HarborImage) (env : HarborEnv) (basedir : String) :
    Except HarborError HarborImage :=
  if img.expired then Except.error HarborError.expired
  else if img.location.isSome ∧ env.locationExists then
    match harborVerifyChecksum img with
    | Except.ok _ => Except.error HarborError.alreadyDownloaded
    | Except.error _ =>
      Except.error HarborError.verificationFailed
  else if ¬ env.pullOk then Except.error HarborError.downloadFailed
  else if env.pulledFiles.isEmpty then Except.error HarborError.downloadFailed
  else if ¬ env.renameOk then Except.error HarborError.atropeError
  else
    let loc := basedir ++ "/" ++ safeFilename img.identifier
    if ¬ env.checksumComputeOk then Except.error HarborError.notFoundOnDisk
    else
      match harborVerifyChecksum
        { img with location := some loc, locations := [loc],
                   sha512 := some env.checksumHex } with
      | Except.ok r => Except.ok r
      | Except.error e => Except.error e

/-! ## Harbor image-list source (`src/atrope/image_list/harbor.py`) -/

/-- The fields of `HarborImageListSource` the embedded methods read.
`imageList` is `none` when the list has not been fetched. -/
structure HarborSource where
  name : String
  enabled : Bool
  subscribedImages : List String
  imageList : Option (List HarborImage)
  deriving DecidableEq

/-- The tag filter of `HarborImageListSource._process_artifact`: an
explicit subscription list (matched by tag name or artifact digest) takes
precedence over a configured tag pattern, which takes precedence over
matching everything.  The compiled regular expression is modelled as a
Boolean predicate on the tag name. -/
def tagFilter (subscribed : List String) (pattern : Option (String → Bool))
    (digest : String) (tagName : String) : Bool :=
  if ¬ subscribed.isEmpty then
    subscribed.contains tagName || subscribed.contains digest
  else
    match pattern with
    | some p => p tagName
    | none => true

/-- The tag-selection loop of `_process_artifact`: the first tag with a
non-empty name passing the filter is the matching tag. -/
def selectTag (subscribed : List String) (pattern : Option (String → Bool))
    (digest : String) (tags : List String) : Option String :=
  tags.find? fun t => (t ≠ "" : Bool) && tagFilter subscribed pattern digest t

/-- `HarborImageListSource.get_subscribed_images`. -/
def harborGetSubscribedImages (src : HarborSource) : List HarborImage :=
  if ¬ src.enabled then []
  else
    match src.imageList with
    | none => []
    | some lst =>
      if src.subscribedImages.isEmpty then lst
      else lst.filter fun i => src.subscribedImages.contains i.identifier

/-- `HarborImageListSource.get_valid_subscribed_images`. -/
def harborGetValidSubscribedImages (src : HarborSource) : List HarborImage :=
  (harborGetSubscribedImages src).filter fun i => i.verified && !i.expired


/-- A managed catalog entry of the given image list whose identifier is no
longer valid: the entries `Dispatcher.sync` must reap. -/
def staleEntry (cfg : GlanceConfig) (listName : String) (validIds : List String)
    (e : GlanceEntry) : Prop :=
  e.tags.contains cfg.tag = true
  ∧ getProp e "image_list" = listName
  ∧ validIds.contains (getProp e "appdb_id") = false

/-- The degraded end state of an entry whose delete failed: private and
deactivated. -/
def demotedEntry (e : GlanceEntry) : Prop :=
  e.visibility = "private" ∧ e.status = "deactivated"

/-- The catalog state after the `Dispatcher.sync` loop processed the given
snapshot entries in order. -/
def syncStates (cfg : GlanceConfig) (listName : String) (validIds : List String)
    (delFails : Nat → Bool) : Catalog → List GlanceEntry → Catalog
  | s, [] => s
  | s, e :: rest =>
    syncStates cfg listName validIds delFails
      (syncStep cfg listName validIds delFails s e).1 rest

/-- The remote calls issued while the `Dispatcher.sync` loop processes the
given snapshot entries in order. -/
def syncOps (cfg : GlanceConfig) (listName : String) (validIds : List String)
    (delFails : Nat → Bool) : Catalog → List GlanceEntry → List GlanceOp
  | _, [] => []
  | s, e :: rest =>
    (syncStep cfg listName validIds delFails s e).2
    ++ syncOps cfg listName validIds delFails
        (syncStep cfg listName validIds delFails s e).1 rest

/-- Create and delete are the only operations that add or remove catalog
entries; this predicate isolates them in a trace. -/
def isCreateOrDelete : GlanceOp → Bool
  | GlanceOp.createImage _ => true
  | GlanceOp.deleteImage _ => true
  | _ => false

/-- The `image_hash` properties of the managed entries matching an
identifier, in catalog order: the observable for duplicate/replacement
reasoning. -/
def hashViewL (cfg : GlanceConfig) (ident : String) (l : List GlanceEntry) :
    List String :=
  (l.filter (matchesImg cfg ident)).map fun e => getProp e "image_hash"

/-- `hashViewL` of a whole catalog. -/
def hashView (cfg : GlanceConfig) (ident : String) (s : Catalog) : List String :=
  hashViewL cfg ident s.entries

/-- The empty Glance catalog. -/
def emptyCatalog : Catalog := { entries := [], nextId := 0 }

/-- The entry a dispatch into the empty catalog creates, after its upload
turned it active on the server. -/
def newEntryActive (cfg : GlanceConfig) (imageName : String)
    (img : DispatchImage) (vis : String) (kwargs : List (String × String)) :
    GlanceEntry :=
  { newEntry cfg imageName img vis kwargs emptyCatalog with status := "active" }

/-- The catalog after create and upload of a dispatch into the empty
catalog. -/
def postUploadCatalog (cfg : GlanceConfig) (imageName : String)
    (img : DispatchImage) (vis : String) (kwargs : List (String × String)) :
    Catalog :=
  { entries := [newEntryActive cfg imageName img vis kwargs], nextId := 1 }

/-- The state a successful dispatch starting from an empty catalog leaves
behind: a single managed entry for the descriptor, active, carrying the
descriptor's hash, owned by the dispatcher, at the desired visibility;
all its members are accepted grants for projects mapped from the given
VOs, and under the `shared` model every mapped, non-owner project holds
an accepted grant. -/
def dispatchedInv (cfg : GlanceConfig) (img : DispatchImage) (v : String)
    (vos : List String) (s : Catalog) : Prop :=
  ∃ e, s.entries = [e]
    ∧ e.tags = [cfg.tag]
    ∧ getProp e "appdb_id" = img.identifier
    ∧ getProp e "image_hash" = img.hash
    ∧ e.status = "active"
    ∧ e.owner = cfg.ownProject
    ∧ e.visibility = v
    ∧ (∀ m ∈ e.members, m.2 = "accepted"
        ∧ (vos.map (voProject cfg)).contains m.1 = true)
    ∧ (cfg.sharingModel = "shared" →
        ∀ vo ∈ vos, voProject cfg vo ≠ "" → voProject cfg vo ≠ cfg.ownProject →
          (voProject cfg vo, "accepted") ∈ e.members)

/-! ## Helper lemmas -/

theorem map_eq_self_of {α : Type} (f : α → α) :
    ∀ (l : List α), (∀ a ∈ l, f a = a) → l.map f = l := by
  intro l
  induction l with
  | nil => intro _; rfl
  | cons a rest ih =>
    intro h
    rw [List.map_cons, h a (List.mem_cons_self a rest),
      ih fun b hb => h b (List.mem_cons_of_mem a hb)]

theorem addMember_id_of_mem (s : Catalog) (i : Nat) (p : String)
    (h : ∀ e ∈ s.entries, e.id = i → ∃ st, (p, st) ∈ e.members) :
    s.addMember i p = s := by
  unfold Catalog.addMember
  rw [map_eq_self_of]
  · intro e he
    by_cases hid : e.id = i
    · rcases h e he hid with ⟨st, hst⟩
      have hall : e.members.all (fun m => m.1 ≠ p) = false := by
        cases hb : e.members.all (fun m => m.1 ≠ p)
        · rfl
        · rw [List.all_eq_true] at hb
          have := hb (p, st) hst
          simp at this
      rw [if_neg (by simp [hall]; exact fun _ => ⟨st, hst⟩)]
    · rw [if_neg (by simp [hid])]

theorem updateMemberSt_id_of_accepted (s : Catalog) (i : Nat) (p : String)
    (h : ∀ e ∈ s.entries, e.id = i → ∀ m ∈ e.members, m.1 = p → m.2 = "accepted") :
    s.updateMemberSt i p "accepted" = s := by
  unfold Catalog.updateMemberSt
  rw [map_eq_self_of]
  intro e he
  by_cases hid : e.id = i
  · rw [if_pos hid]
    have hm : e.members.map (fun m => if m.1 = p then (m.1, "accepted") else m)
        = e.members := by
      rw [map_eq_self_of]
      intro m hmem
      by_cases hp : m.1 = p
      · rw [if_pos hp]
        have hacc := h e he hid m hmem hp
        cases m with
        | mk a b =>
          simp only at hacc
          rw [hacc]
      · rw [if_neg hp]
    rw [hm]
  · rw [if_neg hid]

theorem shareLoop_id (cfg : GlanceConfig) (snap : GlanceEntry)
    (hvis : snap.visibility = "shared") :
    ∀ (vos : List String) (visVar : String) (s : Catalog),
      (∀ vo ∈ vos, voProject cfg vo ≠ "" → snap.owner ≠ voProject cfg vo →
        ∀ e ∈ s.entries, e.id = snap.id →
          (voProject cfg vo, "accepted") ∈ e.members) →
      (∀ e ∈ s.entries, e.id = snap.id → ∀ m ∈ e.members, m.2 = "accepted") →
      (shareLoop cfg snap vos visVar s).1 = s
      ∧ (shareLoop cfg snap vos visVar s).2.2 = visVar := by
  intro vos
  induction vos with
  | nil => intro visVar s _ _; exact ⟨rfl, rfl⟩
  | cons vo rest ih =>
    intro visVar s hgrant hacc
    rw [shareLoop]
    by_cases hp : voProject cfg vo = ""
    · rw [if_pos hp]
      exact ih visVar s
        (fun vo2 h2 => hgrant vo2 (List.mem_cons_of_mem vo h2)) hacc
    · rw [if_neg hp]
      by_cases ho : snap.owner = voProject cfg vo
      · rw [if_pos ho]
        exact ih visVar s
          (fun vo2 h2 => hgrant vo2 (List.mem_cons_of_mem vo h2)) hacc
      · rw [if_neg ho]
        have hstep : (if snap.visibility ≠ "shared" then
            (s.updateVis snap.id "shared",
             [GlanceOp.updateVisibility snap.id "shared"], "shared")
            else (s, ([] : List GlanceOp), visVar))
            = (s, ([] : List GlanceOp), visVar) := by
          rw [if_neg (by simp [hvis])]
        rw [hstep]
        have hadd : s.addMember snap.id (voProject cfg vo) = s :=
          addMember_id_of_mem s snap.id (voProject cfg vo)
            (fun e he hid => ⟨"accepted",
              hgrant vo (List.mem_cons_self vo rest) hp ho e he hid⟩)
        have hupd : (s.addMember snap.id (voProject cfg vo)).updateMemberSt
            snap.id (voProject cfg vo) "accepted" = s := by
          rw [hadd]
          exact updateMemberSt_id_of_accepted s snap.id (voProject cfg vo)
            (fun e he hid m hm _ => hacc e he hid m hm)
        simp only [hupd]
        have hres := ih visVar s
          (fun vo2 h2 => hgrant vo2 (List.mem_cons_of_mem vo h2)) hacc
        exact ⟨hres.1, hres.2⟩

theorem cleanStale_singleton (cfg : GlanceConfig) (imgId : Nat)
    (vos : List String) (vFin : String) (s : Catalog) (e : GlanceEntry)
    (hs : s.entries = [e]) (hid : e.id = imgId)
    (hmem : ∀ m ∈ e.members, (vos.map (voProject cfg)).contains m.1 = true) :
    (cleanStale cfg imgId vos vFin s).1
      = { s with entries := [{ e with visibility := vFin }] } := by
  have h1 : (s.updateVis imgId "shared").entries
      = [{ e with visibility := "shared" }] := by
    simp [Catalog.updateVis, hs, hid]
  have h2 : (s.updateVis imgId "shared").findEntry imgId
      = some { e with visibility := "shared" } := by
    simp [Catalog.findEntry, h1, List.find?, hid]
  have hstale : e.members.filter
      (fun m => ¬ (vos.map (voProject cfg)).contains m.1) = [] := by
    rw [List.filter_eq_nil_iff]
    intro m hm
    simpa using hmem m hm
  have hgoal : (cleanStale cfg imgId vos vFin s).1
      = ((e.members.filter fun m => ¬ (vos.map (voProject cfg)).contains m.1).foldl
          (fun acc m => Catalog.removeMember acc imgId m.1)
          (s.updateVis imgId "shared")).updateVis imgId vFin := by
    simp only [cleanStale, h2]
    rfl
  rw [hgoal, hstale]
  simp only [List.foldl_nil]
  simp [Catalog.updateVis, hs, hid]

theorem shareLoop_members (cfg : GlanceConfig) (snap : GlanceEntry)
    (hvis : snap.visibility = "shared") (vosAll : List String) :
    ∀ (vos : List String) (visVar : String) (s : Catalog) (e : GlanceEntry),
      (∀ vo ∈ vos, vo ∈ vosAll) →
      s.entries = [e] → e.id = snap.id →
      (∀ m ∈ e.members, m.2 = "accepted"
        ∧ (vosAll.map (voProject cfg)).contains m.1 = true) →
      ∃ e2, (shareLoop cfg snap vos visVar s).1.entries = [e2]
        ∧ (shareLoop cfg snap vos visVar s).1.nextId = s.nextId
        ∧ e2.id = e.id ∧ e2.tags = e.tags ∧ e2.props = e.props
        ∧ e2.status = e.status ∧ e2.owner = e.owner
        ∧ e2.visibility = e.visibility ∧ e2.name = e.name
        ∧ (∀ m ∈ e2.members, m.2 = "accepted"
            ∧ (vosAll.map (voProject cfg)).contains m.1 = true)
        ∧ (∀ m ∈ e.members, m ∈ e2.members)
        ∧ (∀ vo ∈ vos, voProject cfg vo ≠ "" → snap.owner ≠ voProject cfg vo →
            (voProject cfg vo, "accepted") ∈ e2.members)
        ∧ (shareLoop cfg snap vos visVar s).2.2 = visVar := by
  intro vos
  induction vos with
  | nil =>
    intro visVar s e _ hs _ hmem
    exact ⟨e, hs, rfl, rfl, rfl, rfl, rfl, rfl, rfl, rfl, hmem,
      fun m hm => hm, by simp, rfl⟩
  | cons vo rest ih =>
    intro visVar s e hsub hs hid hmem
    rw [shareLoop]
    by_cases hp : voProject cfg vo = ""
    · rw [if_pos hp]
      rcases ih visVar s e (fun v hv => hsub v (List.mem_cons_of_mem vo hv))
          hs hid hmem with
        ⟨e4, hE, hN, hid4, htags4, hprops4, hstat4, hown4, hvis4, hname4,
         hall4, hsub4, hqual4, hvv4⟩
      refine ⟨e4, hE, hN, hid4, htags4, hprops4, hstat4, hown4, hvis4, hname4,
        hall4, hsub4, ?_, hvv4⟩
      intro vo2 hvo2 hne2 hown2
      rcases List.mem_cons.mp hvo2 with rfl | h2r
      · exact absurd hp hne2
      · exact hqual4 vo2 h2r hne2 hown2
    · rw [if_neg hp]
      by_cases ho : snap.owner = voProject cfg vo
      · rw [if_pos ho]
        rcases ih visVar s e (fun v hv => hsub v (List.mem_cons_of_mem vo hv))
            hs hid hmem with
          ⟨e4, hE, hN, hid4, htags4, hprops4, hstat4, hown4, hvis4, hname4,
           hall4, hsub4, hqual4, hvv4⟩
        refine ⟨e4, hE, hN, hid4, htags4, hprops4, hstat4, hown4, hvis4, hname4,
          hall4, hsub4, ?_, hvv4⟩
        intro vo2 hvo2 hne2 hown2
        rcases List.mem_cons.mp hvo2 with rfl | h2r
        · exact absurd ho hown2
        · exact hqual4 vo2 h2r hne2 hown2
      · rw [if_neg ho]
        have hstep : (if snap.visibility ≠ "shared" then
            (s.updateVis snap.id "shared",
             [GlanceOp.updateVisibility snap.id "shared"], "shared")
            else (s, ([] : List GlanceOp), visVar))
            = (s, ([] : List GlanceOp), visVar) := by
          rw [if_neg (by simp [hvis])]
        rw [hstep]
        have hs2 : ∃ M3,
            ((s.addMember snap.id (voProject cfg vo)).updateMemberSt snap.id
              (voProject cfg vo) "accepted").entries = [{ e with members := M3 }]
            ∧ ((s.addMember snap.id (voProject cfg vo)).updateMemberSt snap.id
                (voProject cfg vo) "accepted").nextId = s.nextId
            ∧ (voProject cfg vo, "accepted") ∈ M3
            ∧ (∀ m ∈ e.members, m ∈ M3)
            ∧ (∀ m ∈ M3, m.2 = "accepted"
                ∧ (vosAll.map (voProject cfg)).contains m.1 = true) := by
          by_cases hex : e.members.all (fun m => m.1 ≠ voProject cfg vo) = true
          · refine ⟨e.members ++ [(voProject cfg vo, "accepted")], ?_, ?_, ?_, ?_, ?_⟩
            · have hadd : (s.addMember snap.id (voProject cfg vo)).entries
                  = [{ e with members :=
                        e.members ++ [(voProject cfg vo, "pending")] }] := by
                unfold Catalog.addMember
                rw [hs]
                simp only [List.map_cons, List.map_nil]
                rw [if_pos ⟨hid, hex⟩]
              have hupd : (e.members ++ [(voProject cfg vo, "pending")]).map
                  (fun m => if m.1 = voProject cfg vo
                    then (m.1, "accepted") else m)
                  = e.members ++ [(voProject cfg vo, "accepted")] := by
                rw [List.map_append]
                congr 1
                · rw [map_eq_self_of]
                  intro m hm
                  rw [List.all_eq_true] at hex
                  have := hex m hm
                  simp at this
                  rw [if_neg this]
                · simp
              unfold Catalog.updateMemberSt
              rw [hadd]
              simp only [List.map_cons, List.map_nil]
              rw [if_pos hid]
              rw [hupd]
            · rfl
            · exact List.mem_append_right _ (by simp)
            · exact fun m hm => List.mem_append_left _ hm
            · intro m hm
              rcases List.mem_append.mp hm with hm1 | hm2
              · exact hmem m hm1
              · have hmeq : m = (voProject cfg vo, "accepted") := by simpa using hm2
                subst hmeq
                refine ⟨rfl, ?_⟩
                have hmm : voProject cfg vo ∈ vosAll.map (voProject cfg) :=
                  List.mem_map.mpr ⟨vo, hsub vo (List.mem_cons_self vo rest), rfl⟩
                simpa using hmm
          · have hex2 : ∃ m ∈ e.members, m.1 = voProject cfg vo := by
              rw [List.all_eq_true] at hex
              push_neg at hex
              rcases hex with ⟨m, hm, hmp⟩
              exact ⟨m, hm, by simpa using hmp⟩
            rcases hex2 with ⟨m0, hm0, hm0p⟩
            have hadd : s.addMember snap.id (voProject cfg vo) = s :=
              addMember_id_of_mem s snap.id (voProject cfg vo)
                (fun e3 he3 _ => by
                  rw [hs] at he3
                  rcases List.mem_singleton.mp he3 with rfl
                  exact ⟨m0.2, by rw [← hm0p]; exact hm0⟩)
            have hupd : (s.addMember snap.id (voProject cfg vo)).updateMemberSt
                snap.id (voProject cfg vo) "accepted" = s := by
              rw [hadd]
              exact updateMemberSt_id_of_accepted s snap.id (voProject cfg vo)
                (fun e3 he3 _ m hm _ => by
                  rw [hs] at he3
                  rcases List.mem_singleton.mp he3 with rfl
                  exact (hmem m hm).1)
            refine ⟨e.members, by rw [hupd, hs], by rw [hupd], ?_, fun m hm => hm,
              hmem⟩
            have hm0acc : m0.2 = "accepted" := (hmem m0 hm0).1
            have : m0 = (voProject cfg vo, "accepted") := by
              cases m0 with
              | mk a b =>
                simp only at hm0p hm0acc
                rw [hm0p, hm0acc]
            rw [← this]
            exact hm0
        rcases hs2 with ⟨M3, h21, h2n, h2p, h2sub, h2all⟩
        rcases ih visVar _ { e with members := M3 }
            (fun v hv => hsub v (List.mem_cons_of_mem vo hv)) h21 hid h2all with
          ⟨e4, hE, hN, hid4, htags4, hprops4, hstat4, hown4, hvis4, hname4,
           hall4, hsub4, hqual4, hvv4⟩
        refine ⟨e4, hE, by rw [hN, h2n], hid4, htags4, hprops4, hstat4, hown4,
          hvis4, hname4, hall4,
          fun m hm => hsub4 m (h2sub m hm), ?_, hvv4⟩
        intro vo2 hvo2 hne2 hown2
        rcases List.mem_cons.mp hvo2 with rfl | h2r
        · exact hsub4 _ h2p
        · exact hqual4 vo2 h2r hne2 hown2

theorem find?_congrPred {α : Type} (l : List α) (p q : α → Bool)
    (h : ∀ a, p a = q a) : l.find? p = l.find? q := by
  induction l with
  | nil => rfl
  | cons a l ih => simp only [List.find?, h a, ih]

theorem checkKwargs_collision (k v : String) :
    ∀ (kwargs : List (String × String)) (keys : List String),
      (k, v) ∈ kwargs → k ∈ keys →
      ∃ k2, checkKwargs keys kwargs = some k2 := by
  intro kwargs
  induction kwargs with
  | nil => intro keys h; simp at h
  | cons kv rest ih =>
    obtain ⟨k0, v0⟩ := kv
    intro keys hmem hkeys
    by_cases hc : keys.contains k0 = true
    · refine ⟨k0, ?_⟩
      rw [checkKwargs, if_pos hc]
    · rcases List.mem_cons.mp hmem with heq | htail
      · exfalso
        apply hc
        have hkk : k0 = k := (Prod.mk.injEq _ _ _ _ ▸ heq.symm).1
        rw [hkk]
        simpa using hkeys
      · have hres := ih (keys ++ [k0]) htail (by simp [hkeys])
        rcases hres with ⟨k2, hk2⟩
        refine ⟨k2, ?_⟩
        rw [checkKwargs, if_neg hc, hk2]

/-! ## C5: metadata collision fails before any remote call -/

/-- C5: dispatching with a caller-supplied extra property whose key equals
a computed metadata key (for example `"name"`) raises the typed
`MetadataOverwriteNotSupported` error before any remote catalog call is
made: the returned trace of catalog operations is empty, so the catalog
receives zero calls and no entry is created, modified or listed. -/
theorem dispatch_metadata_collision_zero_calls
    (cfg : GlanceConfig) (imageName : String) (img : DispatchImage)
    (isPublic : Bool) (vos : List String) (kwargs : List (String × String))
    (s : Catalog) (k v : String)
    (hin : (k, v) ∈ kwargs) (hbase : k ∈ baseMetadataKeys) :
    ∃ k2, dispatch cfg imageName img isPublic vos kwargs s =
      (Except.error (DispatchError.metadataOverwrite k2), []) := by
  have hk : k ∈ baseMetadataKeys ++
      (if img.applianceAttributes ≠ [] then ["APPLIANCE_ATTRIBUTES"] else []) := by
    exact List.mem_append_left _ hbase
  rcases checkKwargs_collision k v kwargs _ hin hk with ⟨k2, hk2⟩
  refine ⟨k2, ?_⟩
  by_cases hattr : img.applianceAttributes = []
  · simp [hattr] at hk2
    simp [dispatch, hattr, hk2]
  · simp [hattr] at hk2
    simp [dispatch, hattr, hk2]

/-- Witness for C5 at a concrete input: the caller passes `name`, which is
a computed key, and dispatch fails with an empty remote-call trace. -/
theorem dispatch_metadata_collision_zero_calls_witness :
    ∃ k2, dispatch
      { tag := "atrope", formats := [], sharingModel := "community",
        voMap := [], ownProject := "own" }
      "n"
      { identifier := "id1", hash := "h", arch := "x86_64", osname := "U",
        osversion := "20", description := "d", mpuri := "m",
        applianceAttributes := [], format := "raw", ovfFormat := "raw" }
      false [] [("name", "boom")] { entries := [], nextId := 0 } =
      (Except.error (DispatchError.metadataOverwrite k2), []) :=
  dispatch_metadata_collision_zero_calls _ "n" _ false [] _ _ "name" "boom"
    (by decide) (by decide)

/-! ## C6: one re-download on cached checksum mismatch, fatal on second -/

/-- C6: for a feed-based image whose cached local file exists but fails
checksum verification, `download` triggers exactly one re-download
attempt (the fetch counter is 1, not 2 or more); when the re-downloaded
bytes also fail verification the fatal `ImageVerificationFailed` error is
raised and no further download attempt is made. -/
theorem hepix_download_one_retry_then_fatal
    (img : HepixImage) (env : HepixEnv) (basedir : String)
    (hexp : img.expired = false) (hloc : img.location = none)
    (hfile : env.fileExists = true) (hcache : env.cachedChecksumOk = false)
    (hfetch : env.fetchOk 0 = true) (hsum : env.fetchedChecksumOk 0 = false) :
    hepixDownload img env basedir =
      (Except.error HepixError.verificationFailed, 1) := by
  simp [hepixDownload, hexp, hloc, hfile, hcache, hepixFetch, hfetch, hsum]

/-- Witness for C6 at a concrete image and environment. -/
theorem hepix_download_one_retry_then_fatal_witness :
    hepixDownload
      { identifier := "i1", uri := "u", sha512 := "s", mpuri := "m",
        description := "d", arch := "a", osname := "o", osversion := "v",
        format := "raw", applianceAttributes := [], expires := 0,
        expired := false, verified := false, location := none, locations := [] }
      { fileExists := true, fetchOk := fun _ => true,
        cachedChecksumOk := false, fetchedChecksumOk := fun _ => false }
      "/cache" = (Except.error HepixError.verificationFailed, 1) :=
  hepix_download_one_retry_then_fatal _ _ "/cache" rfl rfl rfl rfl rfl rfl

/-! ## C9: absent expiry means expired, expired refuses download -/

/-- C9: a feed entry with no `dc:date:expires` field yields a descriptor
whose expiry defaults to the parse of `"2000-01-01 00:00"`; whenever that
default timestamp lies in the past the descriptor is already `expired`,
and downloading an expired descriptor is refused with the `ImageExpired`
signal before any fetch attempt. -/
theorem hepix_absent_expiry_is_expired
    (imageDict : List (String × String)) (parseDate : String → Int) (now : Int)
    (hreq : ∀ f ∈ hepixRequiredFields, (lookupStr f imageDict).isSome = true)
    (hnoexp : lookupStr "dc:date:expires" imageDict = none)
    (hpast : parseDate "2000-01-01 00:00" < now) :
    ∃ img, mkHepixImage imageDict parseDate now = Except.ok img
      ∧ img.expired = true
      ∧ ∀ env basedir,
          hepixDownload img env basedir = (Except.error HepixError.expired, 0) := by
  have hall : hepixRequiredFields.all (fun f => (lookupStr f imageDict).isSome) = true := by
    rw [List.all_eq_true]
    exact hreq
  simp only [mkHepixImage, hall, if_true]
  refine ⟨_, rfl, ?_, ?_⟩
  · simp [hnoexp, hpast]
  · intro env basedir
    simp [hepixDownload, hnoexp, hpast]

/-- Witness for C9: a concrete feed entry carrying every required field
but no expiry field, with the year-2000 default in the past. -/
theorem hepix_absent_expiry_is_expired_witness :
    ∃ img, mkHepixImage
        [("ad:group", "g"), ("ad:mpuri", "m"), ("ad:user:fullname", "f"),
         ("ad:user:guid", "gu"), ("ad:user:uri", "uu"), ("dc:description", "d"),
         ("dc:identifier", "i"), ("dc:title", "t"), ("hv:hypervisor", "h"),
         ("hv:format", "raw"), ("hv:size", "1"), ("hv:uri", "u"),
         ("hv:version", "1"), ("sl:arch", "a"), ("sl:checksum:sha512", "c"),
         ("sl:comments", "co"), ("sl:os", "o"), ("sl:osname", "on"),
         ("sl:osversion", "ov")]
        (fun _ => 0) 1 = Except.ok img
      ∧ img.expired = true
      ∧ ∀ env basedir,
          hepixDownload img env basedir = (Except.error HepixError.expired, 0) :=
  hepix_absent_expiry_is_expired _ (fun _ => 0) 1 (by decide) (by decide)
    (by decide)

/-! ## C7: tag-selection priority order -/

/-- C7: per artifact, tag selection follows the strict priority order of
`_process_artifact`: with a non-empty subscription list a tag is selected
solely by subscription match (tag name or content digest in the list);
with no subscription list but a configured tag pattern, solely by the
pattern; with neither, every (non-empty) tag matches.  In particular with
subscription list `{"v1"}`, pattern `"^v"` and tags `{"v1","v2","latest"}`
(in any order), exactly the tag `"v1"` is selected. -/
theorem tag_selection_priority :
    (∀ (sub : List String) (pat : Option (String → Bool)) (dg : String)
        (tags : List String), sub ≠ [] →
        selectTag sub pat dg tags =
          tags.find? fun t =>
            (t ≠ "" : Bool) && (sub.contains t || sub.contains dg))
  ∧ (∀ (pat : String → Bool) (dg : String) (tags : List String),
        selectTag [] (some pat) dg tags =
          tags.find? fun t => (t ≠ "" : Bool) && pat t)
  ∧ (∀ (dg : String) (tags : List String),
        selectTag [] none dg tags = tags.find? fun t => (t ≠ "" : Bool))
  ∧ (∀ tags : List String, tags.Perm ["v1", "v2", "latest"] →
        selectTag ["v1"] (some fun t => t.startsWith "v") "sha256:abc" tags
          = some "v1") := by
  refine ⟨?_, ?_, ?_, ?_⟩
  · intro sub pat dg tags hsub
    apply find?_congrPred
    intro t
    have : sub.isEmpty = false := by
      cases sub with
      | nil => exact absurd rfl hsub
      | cons a l => rfl
    simp [tagFilter, this]
  · intro pat dg tags
    apply find?_congrPred
    intro t
    simp [tagFilter]
  · intro dg tags
    apply find?_congrPred
    intro t
    simp [tagFilter]
  · intro tags hperm
    set p : String → Bool :=
      fun t => (t ≠ "" : Bool) &&
        tagFilter ["v1"] (some fun t => t.startsWith "v") "sha256:abc" t with hp
    have hv1 : "v1" ∈ tags := hperm.mem_iff.mpr (by decide)
    have hsome : (tags.find? p).isSome := by
      rw [List.find?_isSome]
      exact ⟨"v1", hv1, by rw [hp]; decide⟩
    rcases Option.isSome_iff_exists.mp hsome with ⟨a, ha⟩
    have hpa : p a = true := List.find?_some ha
    have hamem : a ∈ tags := List.mem_of_find?_eq_some ha
    have : a ∈ ["v1", "v2", "latest"] := hperm.mem_iff.mp hamem
    have haeq : a = "v1" := by
      rcases List.mem_cons.mp this with h1 | h23
      · exact h1
      · exfalso
        rcases List.mem_cons.mp h23 with h2 | h3
        · rw [h2] at hpa; exact absurd hpa (by decide)
        · have : a = "latest" := by simpa using h3
          rw [this] at hpa; exact absurd hpa (by decide)
    rw [selectTag, ← hp, ha, haeq]

/-- Witness for C7 at a concrete permutation of the tag set. -/
theorem tag_selection_priority_witness :
    selectTag ["v1"] (some fun t => t.startsWith "v") "sha256:abc"
      ["latest", "v2", "v1"] = some "v1" :=
  tag_selection_priority.2.2.2 ["latest", "v2", "v1"] (by decide)

/-! ## C1 infrastructure: hash view of the catalog and trace classification -/

theorem getProp_congrProps (a b : GlanceEntry) (k : String)
    (h : b.props = a.props) : getProp b k = getProp a k := by
  simp [getProp, h]

theorem hashViewL_map (cfg : GlanceConfig) (ident : String)
    (f : GlanceEntry → GlanceEntry)
    (hf : ∀ e, (f e).tags = e.tags ∧ (f e).props = e.props) :
    ∀ l, hashViewL cfg ident (l.map f) = hashViewL cfg ident l := by
  intro l
  induction l with
  | nil => rfl
  | cons a l ih =>
    have hm : matchesImg cfg ident (f a) = matchesImg cfg ident a := by
      simp [matchesImg, getProp, (hf a).1, (hf a).2]
    simp only [List.map_cons, hashViewL, List.filter_cons] at ih ⊢
    rw [hm]
    by_cases h : matchesImg cfg ident a = true
    · simp only [h, if_true, List.map_cons]
      rw [getProp_congrProps a (f a) _ (hf a).2, ih]
    · simp only [h, if_false, Bool.false_eq_true, ih]

theorem hashView_updateVis (cfg : GlanceConfig) (ident : String) (s : Catalog)
    (i : Nat) (v : String) :
    hashView cfg ident (s.updateVis i v) = hashView cfg ident s :=
  hashViewL_map cfg ident _ (fun e => by split <;> exact ⟨rfl, rfl⟩)
    s.entries

theorem hashView_upload (cfg : GlanceConfig) (ident : String) (s : Catalog)
    (i : Nat) :
    hashView cfg ident (s.upload i) = hashView cfg ident s :=
  hashViewL_map cfg ident _ (fun e => by split <;> exact ⟨rfl, rfl⟩)
    s.entries

theorem hashView_deactivate (cfg : GlanceConfig) (ident : String) (s : Catalog)
    (i : Nat) :
    hashView cfg ident (s.deactivate i) = hashView cfg ident s :=
  hashViewL_map cfg ident _ (fun e => by split <;> exact ⟨rfl, rfl⟩)
    s.entries

theorem hashView_addMember (cfg : GlanceConfig) (ident : String) (s : Catalog)
    (i : Nat) (p : String) :
    hashView cfg ident (s.addMember i p) = hashView cfg ident s :=
  hashViewL_map cfg ident _ (fun e => by split <;> exact ⟨rfl, rfl⟩)
    s.entries

theorem hashView_updateMemberSt (cfg : GlanceConfig) (ident : String)
    (s : Catalog) (i : Nat) (p st : String) :
    hashView cfg ident (s.updateMemberSt i p st) = hashView cfg ident s :=
  hashViewL_map cfg ident _ (fun e => by split <;> exact ⟨rfl, rfl⟩)
    s.entries

theorem hashView_removeMember (cfg : GlanceConfig) (ident : String)
    (s : Catalog) (i : Nat) (p : String) :
    hashView cfg ident (s.removeMember i p) = hashView cfg ident s :=
  hashViewL_map cfg ident _ (fun e => by split <;> exact ⟨rfl, rfl⟩)
    s.entries

theorem hashView_foldl_removeMember (cfg : GlanceConfig) (ident : String)
    (i : Nat) :
    ∀ (ms : List (String × String)) (s : Catalog),
      hashView cfg ident
        (ms.foldl (fun acc m => Catalog.removeMember acc i m.1) s)
        = hashView cfg ident s := by
  intro ms
  induction ms with
  | nil => intro s; rfl
  | cons m rest ih =>
    intro s
    rw [List.foldl_cons, ih, hashView_removeMember]

theorem hashView_shareLoop (cfg : GlanceConfig) (ident : String)
    (snap : GlanceEntry) :
    ∀ (vos : List String) (visVar : String) (s : Catalog),
      hashView cfg ident (shareLoop cfg snap vos visVar s).1
        = hashView cfg ident s := by
  intro vos
  induction vos with
  | nil => intro visVar s; rfl
  | cons vo rest ih =>
    intro visVar s
    simp only [shareLoop]
    by_cases hp : voProject cfg vo = ""
    · simp only [hp, if_true, ih]
    · simp only [hp, if_false]
      by_cases ho : snap.owner = voProject cfg vo
      · simp only [ho, if_true, ih]
      · simp only [ho, if_false]
        by_cases hv : snap.visibility = "shared"
        · simp only [hv, ne_eq, not_true_eq_false, if_false, ih,
            hashView_updateMemberSt, hashView_addMember]
        · simp only [ne_eq, hv, not_false_eq_true, if_true, ih,
            hashView_updateMemberSt, hashView_addMember, hashView_updateVis]

theorem shareLoop_ops_no_create_delete (cfg : GlanceConfig)
    (snap : GlanceEntry) :
    ∀ (vos : List String) (visVar : String) (s : Catalog),
      (shareLoop cfg snap vos visVar s).2.1.filter isCreateOrDelete = [] := by
  intro vos
  induction vos with
  | nil => intro visVar s; rfl
  | cons vo rest ih =>
    intro visVar s
    simp only [shareLoop]
    by_cases hp : voProject cfg vo = ""
    · simp only [hp, if_true, ih]
    · simp only [hp, if_false]
      by_cases ho : snap.owner = voProject cfg vo
      · simp only [ho, if_true, ih]
      · simp only [ho, if_false]
        by_cases hv : snap.visibility = "shared"
        · simp only [hv, ne_eq, not_true_eq_false, if_false,
            List.filter_append, ih, List.nil_append, List.filter_cons]
          simp [isCreateOrDelete]
        · simp only [ne_eq, hv, not_false_eq_true, if_true,
            List.filter_append, ih, List.filter_cons]
          simp [isCreateOrDelete]

theorem cleanStale_hashView (cfg : GlanceConfig) (ident : String) (imgId : Nat)
    (vos : List String) (visFinal : String) (s : Catalog) :
    hashView cfg ident (cleanStale cfg imgId vos visFinal s).1
      = hashView cfg ident s := by
  simp only [cleanStale]
  rw [hashView_updateVis, hashView_foldl_removeMember, hashView_updateVis]

theorem cleanStale_ops_no_create_delete (cfg : GlanceConfig) (imgId : Nat)
    (vos : List String) (visFinal : String) (s : Catalog) :
    (cleanStale cfg imgId vos visFinal s).2.filter isCreateOrDelete = [] := by
  simp only [cleanStale, List.filter_append, List.filter_cons]
  have hmap : ∀ (ms : List (String × String)),
      (ms.map fun m => GlanceOp.removeMember imgId m.1).filter isCreateOrDelete
        = [] := by
    intro ms
    rw [List.filter_eq_nil_iff]
    intro x hx
    rcases List.mem_map.mp hx with ⟨m, _, rfl⟩
    simp [isCreateOrDelete]
  simp [isCreateOrDelete, hmap]

theorem newEntry_status (cfg : GlanceConfig) (imageName : String)
    (img : DispatchImage) (vis : String) (kwargs : List (String × String))
    (s : Catalog) : (newEntry cfg imageName img vis kwargs s).status = "queued" :=
  rfl

theorem newEntry_matches (cfg : GlanceConfig) (imageName : String)
    (img : DispatchImage) (vis : String) (kwargs : List (String × String))
    (s : Catalog) :
    matchesImg cfg img.identifier (newEntry cfg imageName img vis kwargs s)
      = true := by
  simp [matchesImg, newEntry, getProp, dispatchProps, lookupStr]

theorem newEntry_hashProp (cfg : GlanceConfig) (imageName : String)
    (img : DispatchImage) (vis : String) (kwargs : List (String × String))
    (s : Catalog) :
    getProp (newEntry cfg imageName img vis kwargs s) "image_hash" = img.hash := by
  simp [newEntry, getProp, dispatchProps, lookupStr]

theorem hashView_append_newEntry (cfg : GlanceConfig) (imageName : String)
    (img : DispatchImage) (vis : String) (kwargs : List (String × String))
    (s : Catalog) :
    hashView cfg img.identifier
      { entries := s.entries ++ [newEntry cfg imageName img vis kwargs s],
        nextId := s.nextId + 1 }
      = hashView cfg img.identifier s ++ [img.hash] := by
  unfold hashView hashViewL
  rw [List.filter_append, List.map_append]
  congr 1
  simp [List.filter_cons, newEntry_matches, newEntry_hashProp]

theorem dispatchCont_none_hashView (cfg : GlanceConfig) (imageName : String)
    (img : DispatchImage) (vis : String) (vos : List String)
    (kwargs : List (String × String)) (s s2 : Catalog)
    (h : (dispatchCont cfg imageName img vis vos kwargs none s).1 = Except.ok s2) :
    hashView cfg img.identifier s2 = hashView cfg img.identifier s ++ [img.hash] := by
  by_cases hsm : cfg.sharingModel = "shared"
  · simp [dispatchCont, hsm, newEntry_status] at h
    rw [← h, cleanStale_hashView, hashView_shareLoop, hashView_upload,
      hashView_append_newEntry]
  · simp [dispatchCont, hsm, newEntry_status] at h
    rw [← h, hashView_upload, hashView_append_newEntry]

theorem dispatchCont_none_ok (cfg : GlanceConfig) (imageName : String)
    (img : DispatchImage) (vis : String) (vos : List String)
    (kwargs : List (String × String)) (s : Catalog) :
    ∃ s2, (dispatchCont cfg imageName img vis vos kwargs none s).1
      = Except.ok s2 := by
  by_cases hsm : cfg.sharingModel = "shared"
  · simp [dispatchCont, hsm, newEntry_status]
  · simp [dispatchCont, hsm, newEntry_status]

theorem dispatchCont_none_ops (cfg : GlanceConfig) (imageName : String)
    (img : DispatchImage) (vis : String) (vos : List String)
    (kwargs : List (String × String)) (s : Catalog) :
    (dispatchCont cfg imageName img vis vos kwargs none s).2.filter
      isCreateOrDelete = [GlanceOp.createImage img.identifier] := by
  by_cases hsm : cfg.sharingModel = "shared"
  · simp [dispatchCont, hsm, newEntry_status, List.filter_append,
      shareLoop_ops_no_create_delete, cleanStale_ops_no_create_delete,
      isCreateOrDelete]
  · simp [dispatchCont, hsm, newEntry_status, List.filter_append,
      isCreateOrDelete]

theorem hashView_deleteImage_unique (cfg : GlanceConfig) (ident : String)
    (s : Catalog) (e : GlanceEntry)
    (hfil : s.entries.filter (matchesImg cfg ident) = [e]) :
    hashView cfg ident (s.deleteImage e.id) = [] := by
  unfold hashView hashViewL Catalog.deleteImage
  rw [List.filter_comm, hfil]
  simp

/-! ## C1: a stale entry is deleted exactly once before the new create -/

/-- C1: when exactly one managed catalog entry matches the descriptor's
identifier and its stored `image_hash` property differs from the
descriptor's content hash, a successful dispatch issues exactly one
delete - of that stale entry - strictly before the single create (the
create/delete sub-trace is exactly `[delete stale, create]`), and in the
final catalog exactly one entry matches the identifier and it carries the
descriptor's new hash, so the old entry (whose stored hash differs) and
the new one never coexist once the dispatch completes. -/
theorem dispatch_replaces_stale_entry
    (cfg : GlanceConfig) (imageName : String) (img : DispatchImage)
    (isPublic : Bool) (vos : List String) (kwargs : List (String × String))
    (s : Catalog) (e : GlanceEntry) (s2 : Catalog) (tr : List GlanceOp)
    (hfil : s.entries.filter (matchesImg cfg img.identifier) = [e])
    (hhash : getProp e "image_hash" ≠ img.hash)
    (hdisp : dispatch cfg imageName img isPublic vos kwargs s
      = (Except.ok s2, tr)) :
    tr.filter isCreateOrDelete =
      [GlanceOp.deleteImage e.id, GlanceOp.createImage img.identifier]
    ∧ hashView cfg img.identifier s2 = [img.hash] := by
  cases hck : checkKwargs
      (baseMetadataKeys ++
        (if img.applianceAttributes ≠ [] then ["APPLIANCE_ATTRIBUTES"] else []))
      kwargs with
  | some k =>
    rw [dispatch] at hdisp
    simp only [hck] at hdisp
    simp at hdisp
  | none =>
    rw [dispatch] at hdisp
    simp only [hck, hfil] at hdisp
    rw [if_pos hhash] at hdisp
    rw [Prod.mk.injEq] at hdisp
    obtain ⟨h1, h2⟩ := hdisp
    constructor
    · rw [← h2, List.filter_cons, List.filter_cons]
      simp only [isCreateOrDelete, Bool.false_eq_true, if_false, if_true]
      rw [dispatchCont_none_ops]
    · have := dispatchCont_none_hashView cfg imageName img _ vos kwargs
        (s.deleteImage e.id) s2 h1
      rw [this, hashView_deleteImage_unique cfg img.identifier s e hfil]
      rfl

/-- Witness for C1: a catalog holding one managed entry for `id1` with
stored hash `oldh`; dispatching the same identifier with hash `newh`
yields the create/delete sub-trace `[delete 5, create]` and a final hash
view of exactly `["newh"]`. -/
theorem dispatch_replaces_stale_entry_witness :
    ([GlanceOp.listImages "atrope", GlanceOp.deleteImage 5,
      GlanceOp.createImage "id1", GlanceOp.uploadImage 6].filter
        isCreateOrDelete
      = [GlanceOp.deleteImage 5, GlanceOp.createImage "id1"])
    ∧ hashView
        { tag := "atrope", formats := [], sharingModel := "community",
          voMap := [], ownProject := "own" } "id1"
        { entries := [
            { id := 6, name := "n", tags := ["atrope"],
              props := [("container_format", "bare"),
                        ("architecture", "x86_64"), ("disk_format", "raw"),
                        ("os_distro", "u"), ("os_version", "20"),
                        ("vmcatcher_event_dc_description", "d"),
                        ("vmcatcher_event_ad_mpuri", "m"),
                        ("appdb_id", "id1"), ("image_hash", "newh")],
              status := "active", visibility := "community", owner := "own",
              members := [] }],
          nextId := 7 } = ["newh"] :=
  dispatch_replaces_stale_entry
    { tag := "atrope", formats := [], sharingModel := "community",
      voMap := [], ownProject := "own" }
    "n"
    { identifier := "id1", hash := "newh", arch := "x86_64", osname := "U",
      osversion := "20", description := "d", mpuri := "m",
      applianceAttributes := [], format := "raw", ovfFormat := "raw" }
    false [] []
    { entries := [
        { id := 5, name := "old", tags := ["atrope"],
          props := [("appdb_id", "id1"), ("image_hash", "oldh")],
          status := "active", visibility := "private", owner := "own",
          members := [] }],
      nextId := 6 }
    { id := 5, name := "old", tags := ["atrope"],
      props := [("appdb_id", "id1"), ("image_hash", "oldh")],
      status := "active", visibility := "private", owner := "own",
      members := [] }
    { entries := [
        { id := 6, name := "n", tags := ["atrope"],
          props := [("container_format", "bare"),
                    ("architecture", "x86_64"), ("disk_format", "raw"),
                    ("os_distro", "u"), ("os_version", "20"),
                    ("vmcatcher_event_dc_description", "d"),
                    ("vmcatcher_event_ad_mpuri", "m"),
                    ("appdb_id", "id1"), ("image_hash", "newh")],
          status := "active", visibility := "community", owner := "own",
          members := [] }],
      nextId := 7 }
    [GlanceOp.listImages "atrope", GlanceOp.deleteImage 5,
     GlanceOp.createImage "id1", GlanceOp.uploadImage 6]
    (by decide) (by decide) rfl

theorem newEntry_appdb (cfg : GlanceConfig) (imageName : String)
    (img : DispatchImage) (vis : String) (kwargs : List (String × String))
    (s : Catalog) :
    getProp (newEntry cfg imageName img vis kwargs s) "appdb_id"
      = img.identifier := by
  simp [newEntry, getProp, dispatchProps, lookupStr]

theorem dispatchCont_none_empty_red (cfg : GlanceConfig) (imageName : String)
    (img : DispatchImage) (vis : String) (vos : List String)
    (kwargs : List (String × String)) :
    (dispatchCont cfg imageName img vis vos kwargs none emptyCatalog).1
    = (if cfg.sharingModel = "shared" then
        Except.ok (cleanStale cfg
          (newEntry cfg imageName img vis kwargs emptyCatalog).id vos
          (shareLoop cfg (newEntry cfg imageName img vis kwargs emptyCatalog)
            vos vis (postUploadCatalog cfg imageName img vis kwargs)).2.2
          (shareLoop cfg (newEntry cfg imageName img vis kwargs emptyCatalog)
            vos vis (postUploadCatalog cfg imageName img vis kwargs)).1).1
      else Except.ok (postUploadCatalog cfg imageName img vis kwargs)) := by
  by_cases hsm : cfg.sharingModel = "shared"
  · simp [dispatchCont, hsm, Catalog.upload, newEntry, emptyCatalog,
      postUploadCatalog, newEntryActive]
  · simp [dispatchCont, hsm, Catalog.upload, newEntry, emptyCatalog,
      postUploadCatalog, newEntryActive]

theorem dispatchCont_empty_inv (cfg : GlanceConfig) (imageName : String)
    (img : DispatchImage) (vis : String) (vos : List String)
    (kwargs : List (String × String)) (s1 : Catalog)
    (hvs : cfg.sharingModel = "shared" → vos ≠ [] → vis = "shared")
    (h : (dispatchCont cfg imageName img vis vos kwargs none emptyCatalog).1
      = Except.ok s1) :
    dispatchedInv cfg img vis vos s1 := by
  rw [dispatchCont_none_empty_red] at h
  by_cases hsm : cfg.sharingModel = "shared"
  · rw [if_pos hsm] at h
    cases vos with
    | nil =>
      simp only [shareLoop] at h
      rw [cleanStale_singleton cfg
          (newEntry cfg imageName img vis kwargs emptyCatalog).id
          [] vis (postUploadCatalog cfg imageName img vis kwargs)
          (newEntryActive cfg imageName img vis kwargs)
          rfl rfl (by simp [newEntryActive, newEntry])] at h
      have hse := Except.ok.inj h
      refine ⟨{ newEntryActive cfg imageName img vis kwargs with
          visibility := vis },
        ?_, rfl, newEntry_appdb cfg imageName img vis kwargs emptyCatalog,
        newEntry_hashProp cfg imageName img vis kwargs emptyCatalog, rfl, rfl, rfl,
        by simp [newEntryActive, newEntry], fun _ vo hvo => absurd hvo (by simp)⟩
      rw [← hse]
    | cons vo rest =>
      have hshared : vis = "shared" := hvs hsm (by simp)
      have hvisn : (newEntry cfg imageName img vis kwargs
          emptyCatalog).visibility = "shared" := hshared
      rcases shareLoop_members cfg
          (newEntry cfg imageName img vis kwargs emptyCatalog)
          hvisn (vo :: rest) (vo :: rest) vis
          (postUploadCatalog cfg imageName img vis kwargs)
          (newEntryActive cfg imageName img vis kwargs)
          (fun v hv => hv) rfl rfl (by simp [newEntryActive, newEntry]) with
        ⟨e4, hE, hN, hid4, htags4, hprops4, hstat4, hown4, hvis4, hname4,
         hall4, hsub4, hqual4, hvv4⟩
      rw [hvv4] at h
      rw [cleanStale_singleton cfg
          (newEntry cfg imageName img vis kwargs emptyCatalog).id
          (vo :: rest) vis _ e4 hE hid4 (fun m hm => (hall4 m hm).2)] at h
      have hse := Except.ok.inj h
      refine ⟨{ e4 with visibility := vis }, ?_, htags4,
        (getProp_congrProps _ e4 "appdb_id" hprops4).trans
          (newEntry_appdb cfg imageName img vis kwargs emptyCatalog),
        (getProp_congrProps _ e4 "image_hash" hprops4).trans
          (newEntry_hashProp cfg imageName img vis kwargs emptyCatalog),
        hstat4, hown4, rfl, hall4, ?_⟩
      · rw [← hse]
      · intro _ vo2 hvo2 hne2 hneo
        exact hqual4 vo2 hvo2 hne2 (fun heq => hneo heq.symm)
  · rw [if_neg hsm] at h
    have hse := Except.ok.inj h
    refine ⟨newEntryActive cfg imageName img vis kwargs,
      ?_, rfl, newEntry_appdb cfg imageName img vis kwargs emptyCatalog,
      newEntry_hashProp cfg imageName img vis kwargs emptyCatalog, rfl, rfl, rfl,
      by simp [newEntryActive, newEntry], fun hsm2 => absurd hsm2 hsm⟩
    rw [← hse]
    rfl

theorem dispatch_again_id (cfg : GlanceConfig) (imageName : String)
    (img : DispatchImage) (isPublic : Bool) (vos : List String)
    (kwargs : List (String × String)) (s : Catalog)
    (hck : checkKwargs (baseMetadataKeys ++
      (if img.applianceAttributes ≠ [] then ["APPLIANCE_ATTRIBUTES"] else []))
      kwargs = none)
    (hinv : dispatchedInv cfg img (desiredVisibility cfg isPublic vos) vos s) :
    (dispatch cfg imageName img isPublic vos kwargs s).1 = Except.ok s := by
  obtain ⟨e, hs, htags, happ, hhash, hstat, hown, hvise, hmemall, hmemvo⟩ := hinv
  have hfil : s.entries.filter (matchesImg cfg img.identifier) = [e] := by
    rw [hs]
    have hm : matchesImg cfg img.identifier e = true := by
      simp [matchesImg, htags, happ]
    simp [List.filter, hm]
  have heclean : ({ e with visibility := desiredVisibility cfg isPublic vos } : GlanceEntry) = e := by
    rw [← hvise]
  have hcontred : (dispatchCont cfg imageName img
      (desiredVisibility cfg isPublic vos) vos kwargs (some e) s).1
      = (if cfg.sharingModel = "shared" then
          Except.ok (cleanStale cfg e.id vos
            (shareLoop cfg e vos (desiredVisibility cfg isPublic vos) s).2.2
            (shareLoop cfg e vos (desiredVisibility cfg isPublic vos) s).1).1
        else Except.ok s) := by
    by_cases hsm : cfg.sharingModel = "shared"
    · simp [dispatchCont, hsm, hstat, hvise]
    · simp [dispatchCont, hsm, hstat, hvise]
  have hcont : (dispatchCont cfg imageName img
      (desiredVisibility cfg isPublic vos) vos kwargs (some e) s).1
      = Except.ok s := by
    rw [hcontred]
    by_cases hsm : cfg.sharingModel = "shared"
    · rw [if_pos hsm]
      cases vos with
      | nil =>
        simp only [shareLoop]
        rw [cleanStale_singleton cfg e.id []
          (desiredVisibility cfg isPublic []) s e hs rfl
          (fun m hm => (hmemall m hm).2)]
        rw [heclean, ← hs]
      | cons vo rest =>
        have hVs : desiredVisibility cfg isPublic (vo :: rest) = "shared" := by
          simp [desiredVisibility, hsm]
        have hevis : e.visibility = "shared" := hvise.trans hVs
        have hloop := shareLoop_id cfg e hevis (vo :: rest)
          (desiredVisibility cfg isPublic (vo :: rest)) s
          (fun vo2 hvo2 hne2 hno e3 he3 _ => by
            rw [hs] at he3
            rcases List.mem_singleton.mp he3 with rfl
            exact hmemvo hsm vo2 hvo2 hne2
              (fun hpeq => hno (hown.trans hpeq.symm)))
          (fun e3 he3 _ m hm => by
            rw [hs] at he3
            rcases List.mem_singleton.mp he3 with rfl
            exact (hmemall m hm).1)
        rw [hloop.1, hloop.2]
        rw [cleanStale_singleton cfg e.id (vo :: rest)
          (desiredVisibility cfg isPublic (vo :: rest)) s e hs rfl
          (fun m hm => (hmemall m hm).2)]
        rw [heclean, ← hs]
    · rw [if_neg hsm]
  have hred : (dispatch cfg imageName img isPublic vos kwargs s).1
      = (dispatchCont cfg imageName img (desiredVisibility cfg isPublic vos)
          vos kwargs (some e) s).1 := by
    simp only [dispatch, hck, hfil]
    rw [if_neg (by simp [hhash])]
  rw [hred, hcont]

/-! ## C2: dispatch is idempotent -/

/-- C2: dispatch is idempotent.  A successful dispatch of descriptor D
into the empty catalog yields a catalog `s1`; dispatching again with the
identical descriptor, desired visibility (public flag, sharing model) and
consumer set (`vos` and VO map) succeeds and returns exactly `s1`: no
additional catalog entry is created and no membership grant is added or
removed (every entry, member list included, is unchanged), and the catalog
entry count for D's identifier stays 1. -/
theorem dispatch_idempotent_from_empty (cfg : GlanceConfig)
    (imageName : String) (img : DispatchImage) (isPublic : Bool)
    (vos : List String) (kwargs : List (String × String)) (s1 : Catalog)
    (tr1 : List GlanceOp)
    (hdisp : dispatch cfg imageName img isPublic vos kwargs emptyCatalog
      = (Except.ok s1, tr1)) :
    (dispatch cfg imageName img isPublic vos kwargs s1).1 = Except.ok s1
    ∧ (s1.entries.filter (matchesImg cfg img.identifier)).length = 1 := by
  cases hck : checkKwargs (baseMetadataKeys ++
      (if img.applianceAttributes ≠ [] then ["APPLIANCE_ATTRIBUTES"] else []))
      kwargs with
  | some k =>
    rw [dispatch] at hdisp
    simp only [hck] at hdisp
    simp at hdisp
  | none =>
    have hcont1 : (dispatchCont cfg imageName img
        (desiredVisibility cfg isPublic vos) vos kwargs none emptyCatalog).1
        = Except.ok s1 := by
      rw [dispatch] at hdisp
      simp only [hck, emptyCatalog, List.filter_nil] at hdisp
      exact (Prod.mk.injEq _ _ _ _ ▸ hdisp).1
    have hvs : cfg.sharingModel = "shared" → vos ≠ [] →
        desiredVisibility cfg isPublic vos = "shared" := by
      intro hsm hvos
      simp [desiredVisibility, hsm, hvos]
    have hinv := dispatchCont_empty_inv cfg imageName img
      (desiredVisibility cfg isPublic vos) vos kwargs s1 hvs hcont1
    refine ⟨dispatch_again_id cfg imageName img isPublic vos kwargs s1 hck hinv,
      ?_⟩
    obtain ⟨e, hs, htags, happ, _⟩ := hinv
    rw [hs]
    have hm : matchesImg cfg img.identifier e = true := by
      simp [matchesImg, htags, happ]
    simp [List.filter, hm]

/-- Witness for C2: a shared-model dispatch of a descriptor into the empty
catalog followed by an identical dispatch returns the very same catalog
(one active shared entry with one accepted membership grant), with exactly
one entry for the identifier. -/
theorem dispatch_idempotent_from_empty_witness :
    ((dispatch
      { tag := "atrope", formats := [], sharingModel := "shared",
        voMap := [("vo1", "proj1")], ownProject := "own" }
      "n"
      { identifier := "id1", hash := "newh", arch := "x86_64", osname := "U",
        osversion := "20", description := "d", mpuri := "m",
        applianceAttributes := [], format := "raw", ovfFormat := "raw" }
      false ["vo1"] []
      { entries := [
          { id := 0, name := "n", tags := ["atrope"],
            props := [("container_format", "bare"),
                      ("architecture", "x86_64"), ("disk_format", "raw"),
                      ("os_distro", "u"), ("os_version", "20"),
                      ("vmcatcher_event_dc_description", "d"),
                      ("vmcatcher_event_ad_mpuri", "m"),
                      ("appdb_id", "id1"), ("image_hash", "newh")],
            status := "active", visibility := "shared", owner := "own",
            members := [("proj1", "accepted")] }],
        nextId := 1 }).1
      = Except.ok
      { entries := [
          { id := 0, name := "n", tags := ["atrope"],
            props := [("container_format", "bare"),
                      ("architecture", "x86_64"), ("disk_format", "raw"),
                      ("os_distro", "u"), ("os_version", "20"),
                      ("vmcatcher_event_dc_description", "d"),
                      ("vmcatcher_event_ad_mpuri", "m"),
                      ("appdb_id", "id1"), ("image_hash", "newh")],
            status := "active", visibility := "shared", owner := "own",
            members := [("proj1", "accepted")] }],
        nextId := 1 })
    ∧ (({ entries := [
            { id := 0, name := "n", tags := ["atrope"],
              props := [("container_format", "bare"),
                        ("architecture", "x86_64"), ("disk_format", "raw"),
                        ("os_distro", "u"), ("os_version", "20"),
                        ("vmcatcher_event_dc_description", "d"),
                        ("vmcatcher_event_ad_mpuri", "m"),
                        ("appdb_id", "id1"), ("image_hash", "newh")],
              status := "active", visibility := "shared", owner := "own",
              members := [("proj1", "accepted")] }],
          nextId := 1 } : Catalog).entries.filter
          (matchesImg
            { tag := "atrope", formats := [], sharingModel := "shared",
              voMap := [("vo1", "proj1")], ownProject := "own" }
            "id1")).length = 1 :=
  dispatch_idempotent_from_empty
    { tag := "atrope", formats := [], sharingModel := "shared",
      voMap := [("vo1", "proj1")], ownProject := "own" }
    "n"
    { identifier := "id1", hash := "newh", arch := "x86_64", osname := "U",
      osversion := "20", description := "d", mpuri := "m",
      applianceAttributes := [], format := "raw", ovfFormat := "raw" }
    false ["vo1"] []
    { entries := [
        { id := 0, name := "n", tags := ["atrope"],
          props := [("container_format", "bare"),
                    ("architecture", "x86_64"), ("disk_format", "raw"),
                    ("os_distro", "u"), ("os_version", "20"),
                    ("vmcatcher_event_dc_description", "d"),
                    ("vmcatcher_event_ad_mpuri", "m"),
                    ("appdb_id", "id1"), ("image_hash", "newh")],
          status := "active", visibility := "shared", owner := "own",
          members := [("proj1", "accepted")] }],
      nextId := 1 }
    [GlanceOp.listImages "atrope", GlanceOp.createImage "id1",
     GlanceOp.uploadImage 0, GlanceOp.addMember 0 "proj1",
     GlanceOp.updateMember 0 "proj1" "accepted",
     GlanceOp.updateVisibility 0 "shared", GlanceOp.listMembers 0,
     GlanceOp.updateVisibility 0 "shared"]
    rfl

/-! ## C3: a Harbor image is never dispatch-eligible -/

/-- C3: `HarborImage.verify_checksum` is a no-op that never raises and
never sets `verified`; `verified` is `False` after construction and is
still `False` after every successful `download` (no code path assigns
`verified = True`), so `get_valid_subscribed_images` of a Harbor source
whose fetched list consists of Harbor images returns the empty list: a
registry-sourced image is never dispatch-eligible. -/
theorem harbor_never_dispatch_eligible :
    (∀ (imageRef : String) (ann : List (String × String)) (ln dg : String),
        (mkHarborImage imageRef ann ln dg).verified = false)
  ∧ (∀ img : HarborImage, harborVerifyChecksum img = Except.ok img)
  ∧ (∀ (img : HarborImage) (env : HarborEnv) (basedir : String)
        (r : HarborImage), img.verified = false →
        harborDownload img env basedir = Except.ok r → r.verified = false)
  ∧ (∀ src : HarborSource,
        (∀ lst, src.imageList = some lst → ∀ i ∈ lst, i.verified = false) →
        harborGetValidSubscribedImages src = []) := by
  refine ⟨fun _ _ _ _ => rfl, fun _ => rfl, ?_, ?_⟩
  · intro img env basedir r hv hdl
    unfold harborDownload at hdl
    simp only [harborVerifyChecksum] at hdl
    split_ifs at hdl <;> simp at hdl
    rw [← hdl]
    exact hv
  · intro src h
    have hsub : ∀ i ∈ harborGetSubscribedImages src, i.verified = false := by
      intro i hi
      unfold harborGetSubscribedImages at hi
      by_cases hen : src.enabled = true
      · cases hlist : src.imageList with
        | none => rw [hlist] at hi; simp [hen] at hi
        | some lst =>
          rw [hlist] at hi
          by_cases hse : src.subscribedImages.isEmpty = true
          · simp [hen, hse] at hi
            exact h lst hlist i hi
          · simp [hen, hse] at hi
            exact h lst hlist i hi.1
      · simp [hen] at hi
    unfold harborGetValidSubscribedImages
    rw [List.filter_eq_nil_iff]
    intro i hi
    simp [hsub i hi]

/-- Witness for C3: a freshly constructed Harbor image is unverified and a
Harbor source holding exactly that image yields no valid subscribed
images. -/
theorem harbor_never_dispatch_eligible_witness :
    (mkHarborImage "myproject/alpine:v1" [] "lst" "sha256:abc").verified = false
  ∧ harborGetValidSubscribedImages
      { name := "lst", enabled := true, subscribedImages := [],
        imageList := some [mkHarborImage "myproject/alpine:v1" [] "lst" "sha256:abc"] }
      = [] :=
  ⟨harbor_never_dispatch_eligible.1 "myproject/alpine:v1" [] "lst" "sha256:abc",
   harbor_never_dispatch_eligible.2.2.2 _ (by
    intro lst hl i hi
    cases hl
    simp at hi
    rw [hi]
    rfl)⟩

/-! ## C8: the registry descriptor identifier omits the registry host -/

/-- C8 evaluation: per `HarborImage.__init__` the identifier is the
composite `image_ref ++ "-" ++ digest` of the image reference and the
content digest only; at the concrete artifact (repository
`myproject/alpine`, tag `v1`, digest `sha256:abc`, registry host
`harbor.example.com`) the registry host does not occur in the identifier
(the host string is not an infix of the identifier), contradicting the
claimed host-reference-digest composite. -/
theorem harbor_identifier_omits_registry_host :
    (∀ (imageRef : String) (ann : List (String × String)) (ln dg : String),
        (mkHarborImage imageRef ann ln dg).identifier = imageRef ++ "-" ++ dg)
  ∧ (mkHarborImage "myproject/alpine:v1" [] "lst" "sha256:abc").identifier
      = "myproject/alpine:v1-sha256:abc"
  ∧ ¬ List.IsInfix "harbor.example.com".data
      "myproject/alpine:v1-sha256:abc".data :=
  ⟨fun _ _ _ _ => rfl, rfl, by decide⟩

/-! ## C10: subscription filtering is by verbatim composite identifier -/

/-- C10: for a Harbor source with a non-empty `subscribed_images` list,
`get_subscribed_images` returns exactly the fetched images whose composite
identifier string is itself an element of `subscribed_images`; any image
whose identifier is not listed verbatim is excluded from the returned set
and hence from the valid subscribed set, even when its tag name or digest
matched the subscription list during discovery. -/
theorem harbor_subscription_by_verbatim_identifier
    (src : HarborSource) (lst : List HarborImage)
    (hen : src.enabled = true) (hsub : src.subscribedImages ≠ [])
    (hlst : src.imageList = some lst) :
    harborGetSubscribedImages src =
      lst.filter (fun i => src.subscribedImages.contains i.identifier)
  ∧ ∀ i ∈ lst, src.subscribedImages.contains i.identifier = false →
      i ∉ harborGetSubscribedImages src
      ∧ i ∉ harborGetValidSubscribedImages src := by
  have hse : src.subscribedImages.isEmpty = false := by
    cases h : src.subscribedImages with
    | nil => exact absurd h hsub
    | cons a l => rfl
  have h1 : harborGetSubscribedImages src =
      lst.filter (fun i => src.subscribedImages.contains i.identifier) := by
    simp [harborGetSubscribedImages, hen, hlst, hse]
  have hnot : ∀ i ∈ lst, src.subscribedImages.contains i.identifier = false →
      i ∉ harborGetSubscribedImages src := by
    intro i _ hc hmem
    rw [h1] at hmem
    have hct := (List.mem_filter.mp hmem).2
    rw [hc] at hct
    exact absurd hct (by decide)
  refine ⟨h1, fun i hi hc => ⟨hnot i hi hc, fun hmem => ?_⟩⟩
  exact hnot i hi hc (List.mem_of_mem_filter hmem)

/-- Witness for C10: the image with composite identifier
`myproject/alpine:v1-sha256:abc` whose tag `v1` matched the subscription
list `["v1"]` during discovery is nevertheless excluded, because the
composite identifier itself is not an element of the list. -/
theorem harbor_subscription_by_verbatim_identifier_witness :
    tagFilter ["v1"] none "sha256:abc" "v1" = true
  ∧ mkHarborImage "myproject/alpine:v1" [] "lst" "sha256:abc" ∉
      harborGetSubscribedImages
        { name := "lst", enabled := true, subscribedImages := ["v1"],
          imageList := some [mkHarborImage "myproject/alpine:v1" [] "lst" "sha256:abc"] } :=
  ⟨by decide,
   ((harbor_subscription_by_verbatim_identifier
      { name := "lst", enabled := true, subscribedImages := ["v1"],
        imageList := some [mkHarborImage "myproject/alpine:v1" [] "lst" "sha256:abc"] }
      [mkHarborImage "myproject/alpine:v1" [] "lst" "sha256:abc"]
      rfl (by decide) rfl).2
     (mkHarborImage "myproject/alpine:v1" [] "lst" "sha256:abc")
     (by decide) (by decide)).1⟩

/-! ## Lemmas about the sync loop -/

theorem syncStep_fst (cfg : GlanceConfig) (listName : String)
    (validIds : List String) (delFails : Nat → Bool) (s : Catalog)
    (e : GlanceEntry) :
    (syncStep cfg listName validIds delFails s e).1 =
      if getProp e "image_list" ≠ listName then s
      else if validIds.contains (getProp e "appdb_id") then s
      else if delFails e.id then (s.updateVis e.id "private").deactivate e.id
      else s.deleteImage e.id := by
  rw [syncStep]
  split_ifs <;> rfl

theorem syncStep_snd_delete (cfg : GlanceConfig) (listName : String)
    (validIds : List String) (delFails : Nat → Bool) (s : Catalog)
    (e : GlanceEntry)
    (hlist : getProp e "image_list" = listName)
    (hvalid : validIds.contains (getProp e "appdb_id") = false) :
    GlanceOp.deleteImage e.id ∈ (syncStep cfg listName validIds delFails s e).2 := by
  rw [syncStep, if_neg (by simp [hlist]), if_neg (by rw [hvalid]; simp)]
  by_cases hf : delFails e.id = true
  · rw [if_pos hf]; simp
  · rw [if_neg hf]; simp

theorem sync_unfold (cfg : GlanceConfig) (listName : String)
    (validIds : List String) (delFails : Nat → Bool) (s : Catalog) :
    sync cfg listName validIds delFails s =
      (syncStates cfg listName validIds delFails s
        (s.entries.filter fun e => e.tags.contains cfg.tag),
       GlanceOp.listImages cfg.tag ::
        syncOps cfg listName validIds delFails s
          (s.entries.filter fun e => e.tags.contains cfg.tag)) := by
  have aux : ∀ (l : List GlanceEntry) (s0 : Catalog) (ops : List GlanceOp),
      l.foldl (fun acc e =>
        ((syncStep cfg listName validIds delFails acc.1 e).1,
         acc.2 ++ (syncStep cfg listName validIds delFails acc.1 e).2)) (s0, ops)
      = (syncStates cfg listName validIds delFails s0 l,
         ops ++ syncOps cfg listName validIds delFails s0 l) := by
    intro l
    induction l with
    | nil => intro s0 ops; simp [syncStates, syncOps]
    | cons e rest ih =>
      intro s0 ops
      rw [List.foldl_cons, ih]
      simp [syncStates, syncOps]
  simp only [sync]
  rw [aux]
  simp

theorem syncOps_delete_attempted (cfg : GlanceConfig) (listName : String)
    (validIds : List String) (delFails : Nat → Bool) :
    ∀ (l : List GlanceEntry) (s : Catalog) (e : GlanceEntry), e ∈ l →
      getProp e "image_list" = listName →
      validIds.contains (getProp e "appdb_id") = false →
      GlanceOp.deleteImage e.id ∈ syncOps cfg listName validIds delFails s l := by
  intro l
  induction l with
  | nil => intro s e h; simp at h
  | cons e0 rest ih =>
    intro s e hmem hlist hvalid
    rw [syncOps]
    rcases List.mem_cons.mp hmem with rfl | htail
    · exact List.mem_append_left _
        (syncStep_snd_delete cfg listName validIds delFails s e hlist hvalid)
    · exact List.mem_append_right _ (ih _ e htail hlist hvalid)

theorem syncStates_stale_demoted (cfg : GlanceConfig) (listName : String)
    (validIds : List String) (delFails : Nat → Bool) :
    ∀ (l : List GlanceEntry) (s : Catalog),
      (∀ e2 ∈ s.entries, staleEntry cfg listName validIds e2 →
        demotedEntry e2
        ∨ ∃ e0 ∈ l, e0.id = e2.id ∧ staleEntry cfg listName validIds e0) →
      ∀ e2 ∈ (syncStates cfg listName validIds delFails s l).entries,
        staleEntry cfg listName validIds e2 → demotedEntry e2 := by
  intro l
  induction l with
  | nil =>
    intro s hinv e2 hmem hst
    rcases hinv e2 hmem hst with h | ⟨e0, h0, _⟩
    · exact h
    · simp at h0
  | cons e rest ih =>
    intro s hinv
    rw [syncStates]
    apply ih
    intro e2 hmem hst
    rw [syncStep_fst] at hmem
    by_cases h1 : getProp e "image_list" ≠ listName
    · rw [if_pos h1] at hmem
      rcases hinv e2 hmem hst with h | ⟨e0, h0, hid, hst0⟩
      · exact Or.inl h
      · rcases List.mem_cons.mp h0 with rfl | h0r
        · exact absurd hst0.2.1 h1
        · exact Or.inr ⟨e0, h0r, hid, hst0⟩
    · rw [if_neg h1] at hmem
      by_cases h2 : validIds.contains (getProp e "appdb_id") = true
      · rw [if_pos h2] at hmem
        rcases hinv e2 hmem hst with h | ⟨e0, h0, hid, hst0⟩
        · exact Or.inl h
        · rcases List.mem_cons.mp h0 with rfl | h0r
          · rw [hst0.2.2] at h2
            exact absurd h2 (by decide)
          · exact Or.inr ⟨e0, h0r, hid, hst0⟩
      · rw [if_neg h2] at hmem
        by_cases h3 : delFails e.id = true
        · rw [if_pos h3] at hmem
          simp only [Catalog.deactivate, Catalog.updateVis] at hmem
          rcases List.mem_map.mp hmem with ⟨e3, hmem3, rfl⟩
          rcases List.mem_map.mp hmem3 with ⟨e4, hmem4, rfl⟩
          by_cases hid4 : e4.id = e.id
          · exact Or.inl ⟨by simp [hid4], by simp [hid4]⟩
          · have he2 :
                (if (if e4.id = e.id then
                      { e4 with visibility := "private" } else e4).id = e.id
                  then { (if e4.id = e.id then
                          { e4 with visibility := "private" } else e4) with
                         status := "deactivated" }
                  else (if e4.id = e.id then
                         { e4 with visibility := "private" } else e4)) = e4 := by
              simp [hid4]
            rw [he2] at hst ⊢
            rcases hinv e4 hmem4 hst with h | ⟨e0, h0, hid, hst0⟩
            · exact Or.inl h
            · rcases List.mem_cons.mp h0 with rfl | h0r
              · exact absurd hid.symm hid4
              · exact Or.inr ⟨e0, h0r, hid, hst0⟩
        · rw [if_neg h3] at hmem
          simp only [Catalog.deleteImage] at hmem
          have hm := List.mem_filter.mp hmem
          rcases hinv e2 hm.1 hst with h | ⟨e0, h0, hid, hst0⟩
          · exact Or.inl h
          · rcases List.mem_cons.mp h0 with rfl | h0r
            · exfalso
              have hne := hm.2
              simp at hne
              exact hne hid.symm
            · exact Or.inr ⟨e0, h0r, hid, hst0⟩

/-! ## C4: sync reaps every stale managed entry -/

/-- C4: for every managed-marker-tagged catalog entry belonging to the
current image-list name whose identifier is not in the valid identifier
set, `sync` attempts to delete it (the attempted `delete_image` call is in
the trace for every such entry); when the delete fails the entry is
instead made private and deactivated, so after `sync` no stale entry is
ever left active - in particular with an empty valid set every such entry
is deleted or ends private and deactivated. -/
theorem sync_reaps_every_stale_entry (cfg : GlanceConfig) (listName : String)
    (validIds : List String) (delFails : Nat → Bool) (s : Catalog) :
    (∀ e2 ∈ (sync cfg listName validIds delFails s).1.entries,
        staleEntry cfg listName validIds e2 →
        e2.visibility = "private" ∧ e2.status = "deactivated"
        ∧ e2.status ≠ "active")
  ∧ (∀ e ∈ s.entries, staleEntry cfg listName validIds e →
        GlanceOp.deleteImage e.id ∈ (sync cfg listName validIds delFails s).2) := by
  constructor
  · intro e2 hmem hst
    rw [sync_unfold] at hmem
    have hd := syncStates_stale_demoted cfg listName validIds delFails _ s
      (fun e0 hm0 hs0 =>
        Or.inr ⟨e0, List.mem_filter.mpr ⟨hm0, hs0.1⟩, rfl, hs0⟩)
      e2 hmem hst
    exact ⟨hd.1, hd.2, by rw [hd.2]; decide⟩
  · intro e hmem hst
    rw [sync_unfold]
    exact List.mem_cons_of_mem _
      (syncOps_delete_attempted cfg listName validIds delFails _ s e
        (List.mem_filter.mpr ⟨hmem, hst.1⟩) hst.2.1 hst.2.2)

/-- Witness for C4: two stale managed entries and a delete oracle that
fails exactly for entry 2; the delete of entry 1 is attempted (and entry 1
disappears), while entry 2 survives demoted to private and deactivated. -/
theorem sync_reaps_every_stale_entry_witness :
    GlanceOp.deleteImage 1 ∈
      (sync { tag := "atrope", formats := [], sharingModel := "shared",
              voMap := [], ownProject := "own" } "lst" []
            (fun i => decide (i = 2))
            { entries := [
                { id := 1, name := "a", tags := ["atrope"],
                  props := [("image_list", "lst"), ("appdb_id", "x1")],
                  status := "active", visibility := "public", owner := "o",
                  members := [] },
                { id := 2, name := "b", tags := ["atrope"],
                  props := [("image_list", "lst"), ("appdb_id", "x2")],
                  status := "active", visibility := "public", owner := "o",
                  members := [] }],
              nextId := 3 }).2
  ∧ ({ id := 2, name := "b", tags := ["atrope"],
       props := [("image_list", "lst"), ("appdb_id", "x2")],
       status := "deactivated", visibility := "private", owner := "o",
       members := [] } : GlanceEntry).visibility = "private"
  ∧ ({ id := 2, name := "b", tags := ["atrope"],
       props := [("image_list", "lst"), ("appdb_id", "x2")],
       status := "deactivated", visibility := "private", owner := "o",
       members := [] } : GlanceEntry).status = "deactivated" :=
  ⟨(sync_reaps_every_stale_entry
      { tag := "atrope", formats := [], sharingModel := "shared",
        voMap := [], ownProject := "own" } "lst" [] (fun i => decide (i = 2))
      { entries := [
          { id := 1, name := "a", tags := ["atrope"],
            props := [("image_list", "lst"), ("appdb_id", "x1")],
            status := "active", visibility := "public", owner := "o",
            members := [] },
          { id := 2, name := "b", tags := ["atrope"],
            props := [("image_list", "lst"), ("appdb_id", "x2")],
            status := "active", visibility := "public", owner := "o",
            members := [] }],
        nextId := 3 }).2
    { id := 1, name := "a", tags := ["atrope"],
      props := [("image_list", "lst"), ("appdb_id", "x1")],
      status := "active", visibility := "public", owner := "o",
      members := [] }
    (by decide) (by exact ⟨by decide, by decide, by decide⟩),
   by
    have h := (sync_reaps_every_stale_entry
      { tag := "atrope", formats := [], sharingModel := "shared",
        voMap := [], ownProject := "own" } "lst" [] (fun i => decide (i = 2))
      { entries := [
          { id := 1, name := "a", tags := ["atrope"],
            props := [("image_list", "lst"), ("appdb_id", "x1")],
            status := "active", visibility := "public", owner := "o",
            members := [] },
          { id := 2, name := "b", tags := ["atrope"],
            props := [("image_list", "lst"), ("appdb_id", "x2")],
            status := "active", visibility := "public", owner := "o",
            members := [] }],
        nextId := 3 }).1
      { id := 2, name := "b", tags := ["atrope"],
        props := [("image_list", "lst"), ("appdb_id", "x2")],
        status := "deactivated", visibility := "private", owner := "o",
        members := [] }
      (by decide) (by exact ⟨by decide, by decide, by decide⟩)
    exact ⟨h.1, h.2.1⟩⟩

end Atrope
